import Mathlib

/-!
# Verification of the taptap RS-485 observer against its specification

A shallow embedding of the decoding pipeline of the `taptap` crate:

* the gateway transport layer's receive-response decoder and packet-number
  reconstruction (`src/gateway/transport.rs`),
* the link-layer framing state machine (`src/gateway/link/receive.rs`),
* the transport receiver's command-request handling
  (`src/gateway/transport/receiver.rs`),
* the barcode codec (`src/barcode.rs`),
* the observer's node-table builder (`src/observer/node_table.rs`),
* the observer's slot clock (`src/observer/slot_clock.rs`),
* the observer's enumeration arbiter and event emission (`src/observer.rs`).

Wire bytes are modelled as `Nat` with the bound `< 256` carried as a
hypothesis where it matters; `u16` values are `Nat` with arithmetic taken
modulo `2 ^ 16` where the source can wrap; `SystemTime`/`Duration` is `Int`
milliseconds.  Fallible Rust functions become `Option`/`Except`-valued
functions, and a reachable Rust panic (an out-of-bounds `split_at`) is an
explicit `panic` result constructor.
-/

namespace Taptap

/-! ## Gateway transport: `src/gateway/transport.rs` -/

/-- `interpret_packet_number_lo`: reconstruct a full 16-bit packet number from
its compressed low byte and the previous full value `old`.  `old.to_be_bytes()`
gives `[old_hi, old_lo]`; `old_hi + 1` is `u8` arithmetic, so the increment is
taken modulo 256 (release-mode wrapping). -/
def interpretPacketNumberLo (newLo old : Nat) : Nat :=
  let oldHi := old / 256
  let oldLo := old % 256
  let newHi := if newLo ≥ oldLo then oldHi else (oldHi + 1) % 256
  newHi * 256 + newLo

/-- `ReceiveResponse`, the decoded form of a receive-response frame payload. -/
structure ReceiveResponse where
  rxBuffersUsed : Option Nat
  txBuffersFree : Option Nat
  unknown1 : Option (Nat × Nat)
  unknown2 : Option (Nat × Nat)
  packetNumber : Nat
  slotCounter : Nat
deriving Repr, DecidableEq

/-- `InvalidReceiveResponse`: the error type of `ReceiveResponse::read_from_bytes`. -/
inductive InvalidReceiveResponse
  | tooShort (expected : Nat)
  | unknownStatusType (statusType : Nat)
deriving Repr, DecidableEq

/-- The result of running a fallible Rust function that can also panic:
`ok` and `err` mirror `Result`, while `panicked` marks an actual Rust panic
(here: `split_at` past the end of a slice). -/
inductive PResult (ε α : Type) where
  | ok (value : α)
  | err (error : ε)
  | panicked
deriving Repr, DecidableEq

def PResult.bind {ε α β : Type} : PResult ε α → (α → PResult ε β) → PResult ε β
  | .ok a, f => f a
  | .err e, _ => .err e
  | .panicked, _ => .panicked

instance {ε : Type} : Monad (PResult ε) where
  pure := PResult.ok
  bind := PResult.bind

/-- One optional 1-byte field of a receive response: consume it iff `present`.
Mirrors `if rest.is_empty() { return Err(TooShort(len + 1)) }` followed by
`rest.split_at(1)`. -/
def grabOptionalByte (present : Bool) (rest : List Nat) (len : Nat) :
    PResult InvalidReceiveResponse (Option Nat × List Nat) :=
  if present then
    match rest with
    | [] => .err (.tooShort (len + 1))
    | v :: rest' => .ok (some v, rest')
  else .ok (none, rest)

/-- One optional 2-byte field of a receive response: consume it iff `present`.
Mirrors `if rest.is_empty() { return Err(TooShort(len + 1)) }` followed by
`rest.split_at(2)` — which panics when exactly one byte remains, because the
emptiness check does not guard a 2-byte split. -/
def grabOptionalPair (present : Bool) (rest : List Nat) (len : Nat) :
    PResult InvalidReceiveResponse (Option (Nat × Nat) × List Nat) :=
  if present then
    match rest with
    | [] => .err (.tooShort (len + 1))
    | [_] => .panicked
    | v₀ :: v₁ :: rest' => .ok (some (v₀, v₁), rest')
  else .ok (none, rest)

/-- The leading big-endian 16-bit status bitmask of a receive-response payload
(`U16::ref_from_bytes(&bytes[0..2])`). -/
def rrStatusType (bytes : List Nat) : Nat :=
  bytes.getD 0 0 * 256 + bytes.getD 1 0

/-- `ReceiveResponse::read_from_bytes`: decode a receive-response payload whose
shape is selected by the leading big-endian 16-bit status bitmask, returning
the decoded record and the remaining inline packet bytes.  The optional fields
are consumed strictly left to right; the packet number is 2 bytes (big endian)
when bit `0x0010` is clear and a 1-byte compressed low byte otherwise; the
trailing slot counter is always 2 bytes. -/
def rrReadFromBytes (bytes : List Nat) (packetNumber : Nat) :
    PResult InvalidReceiveResponse (ReceiveResponse × List Nat) :=
  if bytes.length < 5 then .err (.tooShort 5) else
  if rrStatusType bytes &&& 0xffe0 ≠ 0x00e0 then
    .err (.unknownStatusType (rrStatusType bytes)) else
  -- rx_buffers_used: present iff bit 0x0001 is clear
  (grabOptionalByte (rrStatusType bytes &&& 0x0001 == 0) (bytes.drop 2) bytes.length).bind
    fun (rxBuffersUsed, rest) =>
  -- tx_buffers_free: present iff bit 0x0002 is clear
  (grabOptionalByte (rrStatusType bytes &&& 0x0002 == 0) rest bytes.length).bind
    fun (txBuffersFree, rest) =>
  -- unknown_a: present iff bit 0x0004 is clear
  (grabOptionalPair (rrStatusType bytes &&& 0x0004 == 0) rest bytes.length).bind
    fun (unknownA, rest) =>
  -- unknown_b: present iff bit 0x0008 is clear
  (grabOptionalPair (rrStatusType bytes &&& 0x0008 == 0) rest bytes.length).bind
    fun (unknownB, rest) =>
  -- packet number: full big-endian u16 iff bit 0x0010 is clear, otherwise a
  -- compressed low byte expanded against the stored expectation; both arms
  -- mirror the emptiness check followed by `split_at`
  (if rrStatusType bytes &&& 0x0010 == 0 then
      match rest with
      | [] => PResult.err (InvalidReceiveResponse.tooShort (bytes.length + 1))
      | [_] => PResult.panicked
      | v₀ :: v₁ :: rest' => PResult.ok (v₀ * 256 + v₁, rest')
    else
      match rest with
      | [] => PResult.err (InvalidReceiveResponse.tooShort (bytes.length + 1))
      | v :: rest' => PResult.ok (interpretPacketNumberLo v packetNumber, rest')).bind
    fun (packetNumber, rest) =>
  -- slot counter: always 2 bytes, guarded by an actual 2-byte length check
  if rest.length < 2 then .err (.tooShort (bytes.length + 2)) else
  match rest with
  | s₀ :: s₁ :: packets =>
      .ok ({ rxBuffersUsed, txBuffersFree, unknown1 := unknownA, unknown2 := unknownB,
             packetNumber, slotCounter := s₀ * 256 + s₁ }, packets)
  | _ => .panicked

/-- The wire bytes contributed by an optional 1-byte field. -/
def optList1 : Option Nat → List Nat
  | none => []
  | some v => [v]

/-- The wire bytes contributed by an optional 2-byte field. -/
def optList2 : Option (Nat × Nat) → List Nat
  | none => []
  | some (v₀, v₁) => [v₀, v₁]

/-! ## Sorted association maps (`BTreeMap` semantics) -/

/-- `BTreeMap<K, V>` with `Nat` keys, as an association list sorted by key:
`insert` replaces the value at an existing key and otherwise places the new
entry at its sorted position, so iteration (and `last_entry`) follow ascending
key order. -/
def mapInsert {α : Type} : List (Nat × α) → Nat → α → List (Nat × α)
  | [], k, v => [(k, v)]
  | (k', v') :: t, k, v =>
    if k < k' then (k, v) :: (k', v') :: t
    else if k = k' then (k, v) :: t
    else (k', v') :: mapInsert t k v

/-- `BTreeMap::get`. -/
def mapLookup {α : Type} : List (Nat × α) → Nat → Option α
  | [], _ => none
  | (k', v') :: t, k => if k = k' then some v' else mapLookup t k

/-- `BTreeMap::remove`, dropping the removed value. -/
def mapErase {α : Type} : List (Nat × α) → Nat → List (Nat × α)
  | [], _ => []
  | (k', v') :: t, k => if k = k' then t else (k', v') :: mapErase t k

/-! ## Observer node-table builder: `src/observer/node_table.rs` -/

/-- `LongAddress`: an opaque 8-byte hardware address. -/
abbrev LongAddress := List Nat

/-- `NodeTable`: `BTreeMap<NodeID, LongAddress>`; `NodeID` is a nonzero u16. -/
abbrev NodeTable := List (Nat × LongAddress)

/-- `NodeTableResponseEntry`: one row of a node-table response page; `node_id`
is a raw 16-bit `NodeAddress` (0 is the invalid broadcast address). -/
structure NodeTableResponseEntry where
  longAddress : LongAddress
  nodeId : Nat
deriving Repr, DecidableEq

/-- `NodeTableBuilder`: the per-gateway page-assembly state. -/
structure NodeTableBuilder where
  expectedNext : Option Nat
  table : NodeTable
deriving Repr, DecidableEq

/-- `NodeAddress::from(Option<NodeID>)`: `None` maps to address 0. -/
def nodeAddressOf : Option Nat → Nat
  | none => 0
  | some id => id

/-- The record-insertion loop of `NodeTableBuilder::push`: convert each entry's
address into a `NodeID` (failing on 0) and insert it into the partial table; on
failure the entries already inserted stay in the table, mirroring the early
`return None` after a partial loop. -/
def insertEntries : NodeTable → List NodeTableResponseEntry → Bool × NodeTable
  | t, [] => (true, t)
  | t, e :: es =>
    if e.nodeId = 0 then (false, t)
    else insertEntries (mapInsert t e.nodeId e.longAddress) es

/-- The tail of `NodeTableBuilder::push` after the continuation check: insert
all records, then either commit (empty terminator page) or advance
`expected_next` to the successor of the largest inserted id (`last_entry`),
resetting the partial table if the successor overflows a u16. -/
def NodeTableBuilder.pushEntries (b : NodeTableBuilder)
    (entries : List NodeTableResponseEntry) : Option NodeTable × NodeTableBuilder :=
  match insertEntries b.table entries with
  | (false, t) => (none, ⟨none, t⟩)
  | (true, t) =>
    if entries.isEmpty then
      -- This was the end of the table: take it and reset
      (some t, ⟨none, []⟩)
    else
      match t.getLast? with
      | none => (none, ⟨none, t⟩)  -- unreachable: a nonempty page inserted at least one entry
      | some (lastKey, _) =>
        -- `last.key().successor()`: `checked_add(1)` on a `NonZeroU16`
        let expectedNext := if lastKey + 1 ≤ 0xffff then some (lastKey + 1) else none
        if expectedNext.isNone then (none, ⟨expectedNext, []⟩)
        else (none, ⟨expectedNext, t⟩)

/-- `NodeTableBuilder::push`: if the page's start address does not match the
expected-next address (`None` reading as 0), reset; in that case the code
ignores the page when `start_address == NodeAddress::ZERO` and otherwise
falls through and processes it. -/
def NodeTableBuilder.push (b : NodeTableBuilder) (startAddress : Nat)
    (entries : List NodeTableResponseEntry) : Option NodeTable × NodeTableBuilder :=
  if nodeAddressOf b.expectedNext ≠ startAddress then
    if startAddress = 0 then
      -- "We're mid-table / Ignore" (note: this branch fires at a zero start)
      (none, ⟨none, []⟩)
    else
      NodeTableBuilder.pushEntries ⟨none, []⟩ entries
  else
    NodeTableBuilder.pushEntries b entries

/-! ## Transport receiver command requests: `src/gateway/transport/receiver.rs` -/

/-- `gateway::link::Address`: a link-layer address, either to or from a
gateway. -/
inductive LinkAddress where
  | toGateway (id : Nat)
  | fromGateway (id : Nat)
deriving Repr, DecidableEq

/-- `gateway::link::Frame`. -/
structure Frame where
  address : LinkAddress
  frameType : Nat
  payload : List Nat
deriving Repr, DecidableEq

/-- The slice of `gateway::transport::Receiver` state read or written by
`Receiver::command_request`: the per-gateway last command sequence number, the
pending-commands map, and the three counters this handler can bump.  The
`BTreeMap<(GatewayID, CommandSequenceNumber), _>` key pair is encoded as
`gateway * 256 + sequence`, which preserves the lexicographic key order since
a sequence number is a `u8`. -/
structure CommandRequestState where
  commandSequenceNumbers : List (Nat × Nat)
  commandsAwaitingResponse : List (Nat × (Nat × List Nat))
  invalidCommandRequests : Nat
  retransmittedCommandRequests : Nat
  commandRequests : Nat
deriving Repr, DecidableEq

/-- `Receiver::command_request`: record the pending command
(unconditionally), then classify the frame as new or retransmitted from the
last sequence number seen for this gateway.  The 5-byte header is
`{unknown[3], packet_type, sequence_number}`; the rest of the payload is the
stored tail. -/
def commandRequest (st : CommandRequestState) (frame : Frame) : CommandRequestState :=
  match frame.address with
  | .fromGateway _ => { st with invalidCommandRequests := st.invalidCommandRequests + 1 }
  | .toGateway gatewayId =>
    if frame.payload.length < 5 then
      { st with invalidCommandRequests := st.invalidCommandRequests + 1 }
    else
      let packetType := frame.payload.getD 3 0
      let sequenceNumber := frame.payload.getD 4 0
      let payloadTail := frame.payload.drop 5
      -- The gateway may respond to this, so record it
      let awaiting := mapInsert st.commandsAwaitingResponse
        (gatewayId * 256 + sequenceNumber) (packetType, payloadTail)
      -- Is this a retransmission from our vantage point?
      match mapLookup st.commandSequenceNumbers gatewayId with
      | some s =>
        if s = sequenceNumber then
          { st with commandsAwaitingResponse := awaiting,
                    retransmittedCommandRequests := st.retransmittedCommandRequests + 1 }
        else
          { st with commandsAwaitingResponse := awaiting,
                    commandSequenceNumbers :=
                      mapInsert st.commandSequenceNumbers gatewayId sequenceNumber,
                    commandRequests := st.commandRequests + 1 }
      | none =>
        { st with commandsAwaitingResponse := awaiting,
                  commandSequenceNumbers :=
                    mapInsert st.commandSequenceNumbers gatewayId sequenceNumber,
                  commandRequests := st.commandRequests + 1 }

/-! ## Barcode codec: `src/barcode.rs` -/

/-- `N2H`: uppercase hex digit characters. -/
def n2h (n : Nat) : Char :=
  "0123456789ABCDEF".toList.getD n '0'

/-- `TABLE`: the fixed 256-entry nibble CRC table of the barcode check. -/
def barcodeCrcTable : List Nat := [
  0, 3, 6, 5, 12, 15, 10, 9, 11, 8, 13, 14, 7, 4, 1, 2,
  5, 6, 3, 0, 9, 10, 15, 12, 14, 13, 8, 11, 2, 1, 4, 7,
  10, 9, 12, 15, 6, 5, 0, 3, 1, 2, 7, 4, 13, 14, 11, 8,
  15, 12, 9, 10, 3, 0, 5, 6, 4, 7, 2, 1, 8, 11, 14, 13,
  7, 4, 1, 2, 11, 8, 13, 14, 12, 15, 10, 9, 0, 3, 6, 5,
  2, 1, 4, 7, 14, 13, 8, 11, 9, 10, 15, 12, 5, 6, 3, 0,
  13, 14, 11, 8, 1, 2, 7, 4, 6, 5, 0, 3, 10, 9, 12, 15,
  8, 11, 14, 13, 4, 7, 2, 1, 3, 0, 5, 6, 15, 12, 9, 10,
  14, 13, 8, 11, 2, 1, 4, 7, 5, 6, 3, 0, 9, 10, 15, 12,
  11, 8, 13, 14, 7, 4, 1, 2, 0, 3, 6, 5, 12, 15, 10, 9,
  4, 7, 2, 1, 8, 11, 14, 13, 15, 12, 9, 10, 3, 0, 5, 6,
  1, 2, 7, 4, 13, 14, 11, 8, 10, 9, 12, 15, 6, 5, 0, 3,
  9, 10, 15, 12, 5, 6, 3, 0, 2, 1, 4, 7, 14, 13, 8, 11,
  12, 15, 10, 9, 0, 3, 6, 5, 7, 4, 1, 2, 11, 8, 13, 14,
  3, 0, 5, 6, 15, 12, 9, 10, 8, 11, 14, 13, 4, 7, 2, 1,
  6, 5, 0, 3, 10, 9, 12, 15, 13, 14, 11, 8, 1, 2, 7, 4]

/-- `C2H`: the 16-symbol check-character alphabet. -/
def barcodeCheckAlphabet : List Char :=
  "GHJKLMNPRSTVWXYZ".toList

/-- `crc`: the nibble-wise CRC-4 over all 8 address bytes, starting from 2;
`crc << 4` is `u8` arithmetic, hence the modulo 256. -/
def barcodeCrc (addr : List Nat) : Char :=
  barcodeCheckAlphabet.getD
    (addr.foldl (fun crc byte => barcodeCrcTable.getD (byte ^^^ (crc <<< 4) % 256) 0) 2) 'G'

/-- The nine nibbles of address bytes 3..8 emitted by the barcode formatter
(low nibble of byte 3, then both nibbles of bytes 4 through 7). -/
def barcodeNibbles (addr : List Nat) : List Nat :=
  [addr.getD 3 0 &&& 0xf,
   addr.getD 4 0 >>> 4, addr.getD 4 0 &&& 0xf,
   addr.getD 5 0 >>> 4, addr.getD 5 0 &&& 0xf,
   addr.getD 6 0 >>> 4, addr.getD 6 0 &&& 0xf,
   addr.getD 7 0 >>> 4, addr.getD 7 0 &&& 0xf]

/-- `Display for Barcode`, barcode branch: requires the `04 C0 5B` prefix,
emits the high nibble of byte 3, a dash, the nine nibbles with leading zeros
skipped, and the check character.  The skip guard `i < 10` in the source never
fires for the nine nibble positions `0..=8`, so the skipping is exactly
`dropWhile (· = 0)` — including a final zero nibble.  Addresses with another
prefix print as colon-separated hex instead (not modelled: no claim touches
that branch). -/
def barcodeFormat (addr : List Nat) : Option (List Char) :=
  if addr.getD 0 0 = 0x04 ∧ addr.getD 1 0 = 0xc0 ∧ addr.getD 2 0 = 0x5b then
    some ([n2h (addr.getD 3 0 >>> 4), '-'] ++
          ((barcodeNibbles addr).dropWhile (· = 0)).map n2h ++
          [barcodeCrc addr])
  else none

/-- `char::to_digit(16)`, as used by `from_str_radix`: both letter cases. -/
def hexDigit? (c : Char) : Option Nat :=
  if 48 ≤ c.toNat ∧ c.toNat ≤ 57 then some (c.toNat - 48)
  else if 97 ≤ c.toNat ∧ c.toNat ≤ 102 then some (c.toNat - 97 + 10)
  else if 65 ≤ c.toNat ∧ c.toNat ≤ 70 then some (c.toNat - 65 + 10)
  else none

/-- The digit-accumulation loop of `from_str_radix`: all characters must be
hex digits. -/
def hexAccum? (cs : List Char) : Option Nat :=
  cs.foldl (fun acc c => acc.bind fun a => (hexDigit? c).map fun d => a * 16 + d)
    (some 0)

/-- The digit part of `u64::from_str_radix(_, 16)`: a nonempty all-hex string
whose value fits in a `u64` (larger values are a `PosOverflow` error). -/
def hexCore (cs : List Char) : Option Nat :=
  if cs.isEmpty then none
  else match hexAccum? cs with
    | none => none
    | some v => if v < 2 ^ 64 then some v else none

/-- `u64::from_str_radix(s, 16)`: an optional leading `+`, then hex digits. -/
def hexParseU64 (cs : List Char) : Option Nat :=
  if cs.head? = some '+' then hexCore cs.tail else hexCore cs

/-- `u64::to_be_bytes`. -/
def u64ToBeBytes (v : Nat) : List Nat :=
  [v / 2 ^ 56 % 256, v / 2 ^ 48 % 256, v / 2 ^ 40 % 256, v / 2 ^ 32 % 256,
   v / 2 ^ 24 % 256, v / 2 ^ 16 % 256, v / 2 ^ 8 % 256, v % 256]

/-- `FromStr for Barcode`: `s[1]` must be `-` and `s` at least 5 characters;
`s[0]` is a hex nibble, `s[2 .. len-1]` parses as a hex number packed into the
low bits under the `04 C0 5B` prefix and the leading nibble, and the final
character must equal the recomputed check character. -/
def barcodeParse (s : List Char) : Option (List Nat) :=
  if s.get? 1 ≠ some '-' ∨ s.length < 5 then none
  else
    match hexParseU64 [s.getD 0 ' '] with
    | none => none
    | some leadingNibble =>
      -- `middle` is `s.take (s.length - 1)`; `rest` drops its two leading
      -- characters, and `checksum` is the final character
      match hexParseU64 ((s.take (s.length - 1)).drop 2) with
      | none => none
      | some restVal =>
        -- `addr = rest | (0x04c05b0 | leading_nibble) << 36`, big-endian
        if s.drop (s.length - 1) =
            [barcodeCrc (u64ToBeBytes (restVal ||| ((0x04c05b0 ||| leadingNibble) <<< 36)))] then
          some (u64ToBeBytes (restVal ||| ((0x04c05b0 ||| leadingNibble) <<< 36)))
        else none

/-- The value of a big-endian base-16 digit string (used to state what the
barcode formatter emits and the parser reads). -/
def ofHexDigitsBE (ds : List Nat) : Nat :=
  ds.foldl (fun a d => a * 16 + d) 0

/-! ## Link-layer receiver: `src/gateway/link/receive.rs` -/

/-- `escaping::unescaped_byte`: the byte encoded by `0x7E x`. -/
def unescapedByte (byteAfter7e : Nat) : Option Nat :=
  match byteAfter7e with
  | 0x00 => some 0x7e
  | 0x01 => some 0x24
  | 0x02 => some 0x23
  | 0x03 => some 0x25
  | 0x04 => some 0xa4
  | 0x05 => some 0xa3
  | 0x06 => some 0xa5
  | _ => none

/-- One shift-and-reduce round of the link CRC-16. -/
def linkCrcRound (c : Nat) : Nat :=
  if c % 2 = 1 then (c / 2) ^^^ 0x8408 else c / 2

/-- Modelled from the spec: the gateway-link CRC-16 of `src/gateway/link/crc.rs`,
a module whose source is not in the published tree (only `mod crc;` and its
callers are).  The spec pins the function through its reference frames — e.g.
§6's `{From(0x1201), 0x0149, [00 FF 7C DB C2]}` encoding with CRC bytes
`A3 85` — which identify it as the reflected CRC-16 with polynomial `0x8408`
and initial value `0x8408`; this definition reproduces every CRC in the
receiver's frame vectors.  The C6 results do not depend on the CRC values,
only on the frame validator counting each terminated body exactly once. -/
def linkCrc (data : List Nat) : Nat :=
  data.foldl (fun c b => linkCrcRound^[8] (c ^^^ b)) 0x8408

/-- The states of the receive state machine. -/
inductive LinkState where
  | idle
  | noise
  | startOfFrame
  | frame
  | frameEscape
  | giant
  | giantEscape
deriving Repr, DecidableEq

/-- The link receiver's counters. -/
structure LinkCounters where
  frames : Nat
  runts : Nat
  giants : Nat
  checksums : Nat
  noise : Nat
deriving Repr, DecidableEq

/-- `link::Receiver`, with the emitted frames collected in `output` (the
`Sink` of the Rust receiver). -/
structure LinkReceiver where
  state : LinkState
  counters : LinkCounters
  buffer : List Nat
  output : List Frame
deriving Repr, DecidableEq

/-- `Address::from(u16)`: top bit selects the direction. -/
def addressOfU16 (v : Nat) : LinkAddress :=
  if v &&& 0x8000 = 0 then .toGateway (v &&& 0x7fff) else .fromGateway (v &&& 0x7fff)

/-- `Receiver::parse_frame_from_buffer`: validate the assembled body on the
`7E 08` terminator — runt check, little-endian CRC check, then emit the frame
(big-endian address and type, remaining payload), bumping exactly one of
`runts`, `checksums`, `frames`. -/
def parseFrameFromBuffer (crcFn : List Nat → Nat) (r : LinkReceiver) : LinkReceiver :=
  if r.buffer.length < 6 then
    { r with counters := { r.counters with runts := r.counters.runts + 1 } }
  else
    if r.buffer.getD (r.buffer.length - 2) 0 + 256 * r.buffer.getD (r.buffer.length - 1) 0 ≠
        crcFn (r.buffer.take (r.buffer.length - 2)) then
      { r with counters := { r.counters with checksums := r.counters.checksums + 1 } }
    else
      { r with
          counters := { r.counters with frames := r.counters.frames + 1 },
          output := r.output ++
            [{ address := addressOfU16 (r.buffer.getD 0 0 * 256 + r.buffer.getD 1 0),
               frameType := r.buffer.getD 2 0 * 256 + r.buffer.getD 3 0,
               payload := (r.buffer.take (r.buffer.length - 2)).drop 4 }] }

/-- `MAX_FRAME_SIZE`. -/
def maxFrameSize : Nat := 256

/-- `Receiver::push_u8`: compute the next state (performing the buffer and
parse effects of the first `match`), then apply the entry actions of the
second `match`: `noise` on entering Noise from elsewhere, and buffer drain
plus `giants` on entering Giant from outside Giant/GiantEscape. -/
def pushU8 (crcFn : List Nat → Nat) (r : LinkReceiver) (byte : Nat) : LinkReceiver :=
  let step : LinkReceiver × LinkState :=
    match r.state with
    | .idle =>
      (r, if byte = 0x00 ∨ byte = 0xff then LinkState.idle
          else if byte = 0x7e then LinkState.startOfFrame else LinkState.noise)
    | .noise =>
      (r, if byte = 0x00 ∨ byte = 0xff then LinkState.idle
          else if byte = 0x7e then LinkState.startOfFrame else LinkState.noise)
    | .startOfFrame =>
      (r, if byte = 0x07 then LinkState.frame else LinkState.noise)
    | .frame =>
      if byte = 0x7e then (r, LinkState.frameEscape)
      else if r.buffer.length < maxFrameSize then
        ({ r with buffer := r.buffer ++ [byte] }, LinkState.frame)
      else (r, LinkState.giant)
    | .frameEscape =>
      if byte = 0x08 then
        ({ parseFrameFromBuffer crcFn r with buffer := [] }, LinkState.idle)
      else
        match unescapedByte byte with
        | some b =>
          if r.buffer.length < maxFrameSize then
            ({ r with buffer := r.buffer ++ [b] }, LinkState.frame)
          else ({ r with buffer := [] }, LinkState.giantEscape)
        | none => ({ r with buffer := [] }, LinkState.noise)
    | .giant =>
      (r, if byte = 0x7e then LinkState.giantEscape else LinkState.giant)
    | .giantEscape =>
      (r, if byte = 0x07 then LinkState.frame
          else if byte = 0x08 then LinkState.idle else LinkState.giant)
  let r₁ := step.1
  let nextState := step.2
  let r₂ :=
    if nextState = LinkState.noise ∧ r.state ≠ LinkState.noise then
      { r₁ with counters := { r₁.counters with noise := r₁.counters.noise + 1 } }
    else if nextState = LinkState.giant ∧ r.state ≠ LinkState.giant ∧
        r.state ≠ LinkState.giantEscape then
      { r₁ with buffer := [],
                counters := { r₁.counters with giants := r₁.counters.giants + 1 } }
    else r₁
  { r₂ with state := nextState }

/-- `Receiver::extend_from_slice`: push every byte. -/
def linkRun (crcFn : List Nat → Nat) (r : LinkReceiver) (bytes : List Nat) : LinkReceiver :=
  bytes.foldl (pushU8 crcFn) r

/-- The number of `7E 08` terminator events reached along a run: steps where
the machine sits in FrameEscape or GiantEscape and consumes `0x08`. -/
def terminatorEvents (crcFn : List Nat → Nat) : LinkReceiver → List Nat → Nat
  | _, [] => 0
  | r, b :: bs =>
    (if (r.state = LinkState.frameEscape ∨ r.state = LinkState.giantEscape) ∧ b = 0x08
     then 1 else 0) + terminatorEvents crcFn (pushU8 crcFn r b) bs

/-- The number of frame-body terminator events: FrameEscape consuming `0x08`
(the transitions that run `parse_frame_from_buffer`). -/
def frameTermEvents (crcFn : List Nat → Nat) : LinkReceiver → List Nat → Nat
  | _, [] => 0
  | r, b :: bs =>
    (if r.state = LinkState.frameEscape ∧ b = 0x08 then 1 else 0) +
      frameTermEvents crcFn (pushU8 crcFn r b) bs

/-- The transition function of the state machine, as a function of the current
state, the byte, and the buffer fill level (which decides Frame → Giant). -/
def nextLinkState (s : LinkState) (bufLen : Nat) (byte : Nat) : LinkState :=
  match s with
  | .idle =>
    if byte = 0x00 ∨ byte = 0xff then .idle
    else if byte = 0x7e then .startOfFrame else .noise
  | .noise =>
    if byte = 0x00 ∨ byte = 0xff then .idle
    else if byte = 0x7e then .startOfFrame else .noise
  | .startOfFrame => if byte = 0x07 then .frame else .noise
  | .frame =>
    if byte = 0x7e then .frameEscape
    else if bufLen < maxFrameSize then .frame else .giant
  | .frameEscape =>
    if byte = 0x08 then .idle
    else match unescapedByte byte with
      | some _ => if bufLen < maxFrameSize then .frame else .giantEscape
      | none => .noise
  | .giant => if byte = 0x7e then .giantEscape else .giant
  | .giantEscape =>
    if byte = 0x07 then .frame
    else if byte = 0x08 then .idle else .giant

/-- The number of entries into Giant from a state outside Giant/GiantEscape. -/
def giantEntryEvents (crcFn : List Nat → Nat) : LinkReceiver → List Nat → Nat
  | _, [] => 0
  | r, b :: bs =>
    (if nextLinkState r.state r.buffer.length b = LinkState.giant ∧
        r.state ≠ LinkState.giant ∧ r.state ≠ LinkState.giantEscape then 1 else 0) +
      giantEntryEvents crcFn (pushU8 crcFn r b) bs

/-- A fresh receiver. -/
def initialReceiver : LinkReceiver :=
  { state := .idle, counters := ⟨0, 0, 0, 0, 0⟩, buffer := [], output := [] }

/-! ## Observer slot clock: `src/observer/slot_clock.rs` -/

/-- `SlotCounter::slot_number`: the low 14 bits, valid iff at most 11999. -/
def slotNumber? (sc : Nat) : Option Nat :=
  if sc &&& 0x3fff ≤ 0x2edf then some (sc &&& 0x3fff) else none

/-- `SlotCounter::epoch` as its numeric value 0..3 (`Epoch0 .. EpochC`). -/
def slotEpoch (sc : Nat) : Nat :=
  (sc &&& 0xc000) / 0x4000

/-- `SlotClock::index_and_offset`: the 1000-slot index and the in-index offset
as milliseconds (`NOMINAL_DURATION_PER_SLOT = 5 ms`).  `SystemTime` and
`Duration` are modelled as `Int` milliseconds. -/
def indexAndOffset (sc : Nat) : Option (Nat × Int) :=
  (slotNumber? sc).map fun n =>
    ((slotEpoch sc * 12000 + n) / 1000, (5 : Int) * ((slotEpoch sc * 12000 + n) % 1000))

/-- `NOMINAL_DURATION_PER_INDEX` in milliseconds. -/
def nominalDurationPerIndex : Int := 5000

/-- `SlotClock`: 48 timestamps (one per 1000-slot index), the last assigned
index, and its observation time. -/
structure SlotClock where
  times : List Int
  lastIndex : Nat
  lastTime : Int
deriving Repr, DecidableEq

/-- The backwards re-seeding loop shared by `SlotClock::new` and
`SlotClock::set`: step `i` down modulo 48, stopping on `stop`, assigning
`t - 5000` ms less at each step.  The loop needs at most 47 assignments, so
fuel 48 makes the recursion total without changing its behaviour. -/
def seedLoop : Nat → Nat → Nat → Int → List Int → List Int
  | 0, _, _, _, times => times
  | fuel + 1, i, stop, t, times =>
    if (47 + i) % 48 = stop then times
    else
      seedLoop fuel ((47 + i) % 48) stop (t - nominalDurationPerIndex)
        (times.set ((47 + i) % 48) (t - nominalDurationPerIndex))

/-- `SlotClock::new`: seed `times[index]` from the observation and walk
backwards around the whole table at nominal spacing. -/
def SlotClock.new (sc : Nat) (time : Int) : Option SlotClock :=
  (indexAndOffset sc).map fun (index, offset) =>
    { times := seedLoop 48 index index (time - offset) (List.replicate 48 (time - offset)),
      lastIndex := index, lastTime := time }

/-- `SlotClock::set`: full rebuild on clock regression; assign the new index
and re-seed strictly between it and the last index when the index moved;
no table change when the index is unchanged; always record the assignment. -/
def SlotClock.set (c : SlotClock) (sc : Nat) (time : Int) : Option SlotClock :=
  match indexAndOffset sc with
  | none => none
  | some (index, offset) =>
    if c.lastTime > time then
      -- Clock went backwards: replace the table entirely
      SlotClock.new sc time
    else if c.lastIndex ≠ index then
      some { times := seedLoop 48 index c.lastIndex (time - offset)
                        (c.times.set index (time - offset)),
             lastIndex := index, lastTime := time }
    else
      -- Don't reassign this index
      some { c with lastIndex := index, lastTime := time }

/-- `SlotClock::get`. -/
def SlotClock.get (c : SlotClock) (sc : Nat) : Option Int :=
  (indexAndOffset sc).map fun (index, offset) => c.times.getD index 0 + offset

/-! ## Observer: `src/observer.rs` -/

/-- `U12Pair`: two 12-bit values packed into three bytes. -/
structure U12Pair where
  b₀ : Nat
  b₁ : Nat
  b₂ : Nat
deriving Repr, DecidableEq

/-- `From<U12Pair> for (u16, u16)`. -/
def u12PairDecode (p : U12Pair) : Nat × Nat :=
  ((p.b₀ * 256 + p.b₁) >>> 4, (p.b₁ * 256 + p.b₂) &&& 0x0fff)

/-- `pv::application::PowerReport` (RSSI kept as its raw byte). -/
structure PowerReport where
  voltageInAndVoltageOut : U12Pair
  dcDcDutyCycle : Nat
  currentAndTemperature : U12Pair
  unknown : List Nat
  slotCounter : Nat
  rssi : Nat
deriving Repr, DecidableEq

/-- `observer::event::Gateway`. -/
structure EventGateway where
  id : Nat
  address : Option LongAddress
deriving Repr, DecidableEq

/-- `observer::event::Node`; `barcode` is `Barcode(address)`, i.e. the same
8 bytes (its textual form is produced at serialization time). -/
structure EventNode where
  id : Nat
  address : Option LongAddress
  barcode : Option LongAddress
deriving Repr, DecidableEq

/-- `observer::event::PowerReportEvent`.  The decoded integer measurements
are stored raw; the JSON output scales them to `f64` (`vin/20.0`, `vout/10.0`,
`current/200.0`, `duty/255.0`, `temperature/10.0`), a display-level floating
point step outside this model.  The temperature is the 12-bit value
sign-extended as two's complement (`| 0xF000` then reinterpreted as `i16`). -/
structure PowerReportEvent where
  gateway : EventGateway
  node : EventNode
  timestamp : Int
  voltageIn : Nat
  voltageOut : Nat
  current : Nat
  dcDcDutyCycle : Nat
  temperature : Int
  rssi : Nat
deriving Repr, DecidableEq

/-- `PowerReportEvent::new`: resolve the timestamp through the slot clock
(failing on an invalid slot number), unpack both `U12Pair`s, sign-extend the
temperature. -/
def PowerReportEvent.new (gateway : EventGateway) (node : EventNode)
    (slotClock : SlotClock) (report : PowerReport) : Option PowerReportEvent :=
  match slotClock.get report.slotCounter with
  | none => none
  | some timestamp =>
    some { gateway, node, timestamp,
           voltageIn := (u12PairDecode report.voltageInAndVoltageOut).1,
           voltageOut := (u12PairDecode report.voltageInAndVoltageOut).2,
           current := (u12PairDecode report.currentAndTemperature).1,
           dcDcDutyCycle := report.dcDcDutyCycle,
           temperature :=
             if (u12PairDecode report.currentAndTemperature).2 &&& 0x800 = 0 then
               ((u12PairDecode report.currentAndTemperature).2 : Int)
             else
               (((u12PairDecode report.currentAndTemperature).2 ||| 0xF000 : Nat) : Int) - 65536,
           rssi := report.rssi }

/-- `observer::EnumerationState`. -/
structure EnumerationState where
  enumerationGatewayId : Nat
  gatewayIdentities : List (Nat × LongAddress)
  gatewayVersions : List (Nat × String)
deriving Repr, DecidableEq

/-- `EnumerationState::gateway_identity_observed`: discard identities reported
under the transient enumeration gateway id, store the rest. -/
def EnumerationState.gatewayIdentityObserved (es : EnumerationState)
    (gateway : Nat) (address : LongAddress) : EnumerationState :=
  if gateway = es.enumerationGatewayId then es
  else { es with gatewayIdentities := mapInsert es.gatewayIdentities gateway address }

/-- `observer::PersistentState`. -/
structure PersistentState where
  gatewayNodeTables : List (Nat × NodeTable)
  gatewayIdentities : List (Nat × LongAddress)
  gatewayVersions : List (Nat × String)
deriving Repr, DecidableEq

/-- `observer::Observer`. -/
structure Observer where
  persistentState : PersistentState
  enumerationState : Option EnumerationState
  capturedSlotCounters : List (Nat × Int)
  slotClocks : List (Nat × SlotClock)
  nodeTableBuilders : List (Nat × NodeTableBuilder)
deriving Repr, DecidableEq

/-- `Observer::gateway`. -/
def Observer.gateway (o : Observer) (id : Nat) : EventGateway :=
  { id, address := mapLookup o.persistentState.gatewayIdentities id }

/-- `Observer::node`. -/
def Observer.node (o : Observer) (gatewayId id : Nat) : EventNode :=
  { id,
    address := (mapLookup o.persistentState.gatewayNodeTables gatewayId).bind
      fun nodeTable => mapLookup nodeTable id,
    barcode := (mapLookup o.persistentState.gatewayNodeTables gatewayId).bind
      fun nodeTable => mapLookup nodeTable id }

/-- The callbacks delivered to the observer: the `gateway::transport::Sink`
and `pv::application::Sink` impls.  `gateway_slot_counter_captured` carries
the `SystemTime::now()` reading as an explicit input; payloads the observer
ignores are carried as raw bytes. -/
inductive ObserverInput where
  | enumerationStarted (enumerationGatewayId : Nat)
  | gatewayIdentityObserved (gatewayId : Nat) (address : LongAddress)
  | gatewayVersionObserved (gatewayId : Nat) (version : String)
  | enumerationEnded (gatewayId : Nat)
  | gatewaySlotCounterCaptured (gatewayId : Nat) (now : Int)
  | gatewaySlotCounterObserved (gatewayId : Nat) (slotCounter : Nat)
  | packetReceived (gatewayId : Nat) (header data : List Nat)
  | commandExecuted (gatewayId requestType : Nat) (requestTail : List Nat)
      (responseType : Nat) (responseTail : List Nat)
  | stringRequest (gatewayId nodeId : Nat) (request : String)
  | stringResponse (gatewayId nodeId : Nat) (response : String)
  | nodeTablePage (gatewayId startAddress : Nat) (nodes : List NodeTableResponseEntry)
  | topologyReport (gatewayId nodeId : Nat) (report : List Nat)
  | powerReport (gatewayId nodeId : Nat) (report : PowerReport)
deriving Repr, DecidableEq

/-- The observer's reaction to one callback: the next state plus the emitted
events (`power_report` prints at most one `PowerReport` JSON line). -/
def Observer.handle (o : Observer) (e : ObserverInput) : Observer × List PowerReportEvent :=
  match e with
  | .enumerationStarted gw =>
    ({ o with enumerationState := some ⟨gw, [], []⟩ }, [])
  | .gatewayIdentityObserved gw addr =>
    match o.enumerationState with
    | some es =>
      -- We're enumerating: delegate
      ({ o with enumerationState := some (es.gatewayIdentityObserved gw addr) }, [])
    | none =>
      -- Accept the identity as-is
      ({ o with persistentState :=
          { o.persistentState with
              gatewayIdentities := mapInsert o.persistentState.gatewayIdentities gw addr } }, [])
  | .gatewayVersionObserved gw version =>
    match o.enumerationState with
    | some es =>
      ({ o with
          enumerationState := some
            ({ es with gatewayVersions := mapInsert es.gatewayVersions gw version }) }, [])
    | none =>
      ({ o with persistentState :=
          { o.persistentState with
              gatewayVersions := mapInsert o.persistentState.gatewayVersions gw version } }, [])
  | .enumerationEnded _ =>
    match o.enumerationState with
    | some es =>
      -- Accept the information learned during enumeration as a replacement
      ({ o with
          persistentState :=
            { o.persistentState with
                gatewayIdentities := es.gatewayIdentities,
                gatewayVersions := es.gatewayVersions },
          enumerationState := none }, [])
    | none => (o, [])
  | .gatewaySlotCounterCaptured gw now =>
    ({ o with capturedSlotCounters := mapInsert o.capturedSlotCounters gw now }, [])
  | .gatewaySlotCounterObserved gw sc =>
    match mapLookup o.capturedSlotCounters gw with
    | none => (o, [])
    | some time =>
      match mapLookup o.slotClocks gw with
      | none =>
        match SlotClock.new sc time with
        | some clock =>
          ({ o with capturedSlotCounters := mapErase o.capturedSlotCounters gw,
                    slotClocks := mapInsert o.slotClocks gw clock }, [])
        | none =>
          ({ o with capturedSlotCounters := mapErase o.capturedSlotCounters gw }, [])
      | some clock =>
        match clock.set sc time with
        | some clock' =>
          ({ o with capturedSlotCounters := mapErase o.capturedSlotCounters gw,
                    slotClocks := mapInsert o.slotClocks gw clock' }, [])
        | none =>
          ({ o with capturedSlotCounters := mapErase o.capturedSlotCounters gw }, [])
  | .packetReceived _ _ _ => (o, [])
  | .commandExecuted _ _ _ _ _ => (o, [])
  | .stringRequest _ _ _ => (o, [])
  | .stringResponse _ _ _ => (o, [])
  | .topologyReport _ _ _ => (o, [])
  | .nodeTablePage gw start nodes =>
    match ((mapLookup o.nodeTableBuilders gw).getD ⟨none, []⟩).push start nodes with
    | (some newTable, builder) =>
      ({ o with
          nodeTableBuilders := mapInsert o.nodeTableBuilders gw builder,
          persistentState :=
            { o.persistentState with
                gatewayNodeTables :=
                  mapInsert o.persistentState.gatewayNodeTables gw newTable } }, [])
    | (none, builder) =>
      ({ o with nodeTableBuilders := mapInsert o.nodeTableBuilders gw builder }, [])
  | .powerReport gw node report =>
    match mapLookup o.slotClocks gw with
    | none =>
      -- discarding power report due to missing slot clock
      (o, [])
    | some slotClock =>
      match PowerReportEvent.new (o.gateway gw) (o.node gw node) slotClock report with
      | none =>
        -- discarding power report due to invalid slot counter
        (o, [])
      | some event => (o, [event])

/-!
## Proof development

Everything below is lemmas and theorems about the definitions above.
-/

lemma PResult.bind_ok_iff {ε α β : Type} {m : PResult ε α} {f : α → PResult ε β} {b : β} :
    m.bind f = .ok b ↔ ∃ a, m = .ok a ∧ f a = .ok b := by
  cases m <;> simp [PResult.bind]

lemma PResult.ok_ne_err {ε α : Type} {a : α} {e : ε} : PResult.err e ≠ PResult.ok a := by
  simp

lemma grabOptionalByte_ok {present : Bool} {rest : List Nat} {len : Nat}
    {o : Option Nat} {rest' : List Nat}
    (h : grabOptionalByte present rest len = .ok (o, rest')) :
    (o.isSome ↔ present = true) ∧ rest = optList1 o ++ rest' := by
  unfold grabOptionalByte at h
  split at h
  · cases rest with
    | nil => cases h
    | cons v t =>
      obtain ⟨h₁, h₂⟩ := PResult.ok.inj h |> Prod.mk.inj
      subst h₁; subst h₂
      simp_all [optList1]
  · obtain ⟨h₁, h₂⟩ := PResult.ok.inj h |> Prod.mk.inj
    subst h₁; subst h₂
    simp_all [optList1]

lemma grabOptionalPair_ok {present : Bool} {rest : List Nat} {len : Nat}
    {o : Option (Nat × Nat)} {rest' : List Nat}
    (h : grabOptionalPair present rest len = .ok (o, rest')) :
    (o.isSome ↔ present = true) ∧ rest = optList2 o ++ rest' := by
  unfold grabOptionalPair at h
  split at h
  · match rest with
    | [] => cases h
    | [_] => cases h
    | v₀ :: v₁ :: t =>
      obtain ⟨h₁, h₂⟩ := PResult.ok.inj h |> Prod.mk.inj
      subst h₁; subst h₂
      simp_all [optList2]
  · obtain ⟨h₁, h₂⟩ := PResult.ok.inj h |> Prod.mk.inj
    subst h₁; subst h₂
    simp_all [optList2]

lemma interpretPacketNumberLo_mod (v old : Nat) (hv : v < 256) :
    interpretPacketNumberLo v old % 256 = v := by
  simp only [interpretPacketNumberLo]
  split <;> omega

lemma rrReadFromBytes_ok_shape {bytes : List Nat} {pn : Nat} {r : ReceiveResponse}
    {packets : List Nat}
    (hb : ∀ b ∈ bytes, b < 256)
    (h : rrReadFromBytes bytes pn = .ok (r, packets)) :
    rrStatusType bytes &&& 0xffe0 = 0x00e0 ∧
    (r.rxBuffersUsed.isSome ↔ rrStatusType bytes &&& 0x0001 = 0) ∧
    (r.txBuffersFree.isSome ↔ rrStatusType bytes &&& 0x0002 = 0) ∧
    (r.unknown1.isSome ↔ rrStatusType bytes &&& 0x0004 = 0) ∧
    (r.unknown2.isSome ↔ rrStatusType bytes &&& 0x0008 = 0) ∧
    bytes =
      rrStatusType bytes / 256 :: rrStatusType bytes % 256 ::
      (optList1 r.rxBuffersUsed ++ optList1 r.txBuffersFree ++
       optList2 r.unknown1 ++ optList2 r.unknown2 ++
       (if rrStatusType bytes &&& 0x0010 = 0 then
          [r.packetNumber / 256, r.packetNumber % 256]
        else [r.packetNumber % 256]) ++
       (r.slotCounter / 256 :: r.slotCounter % 256 :: packets)) ∧
    (rrStatusType bytes &&& 0x0010 ≠ 0 →
      r.packetNumber = interpretPacketNumberLo (r.packetNumber % 256) pn) := by
  match bytes, hb with
  | [], hb => simp [rrReadFromBytes] at h
  | [_], hb => simp [rrReadFromBytes] at h
  | b₀ :: b₁ :: tl, hb => ?_
  unfold rrReadFromBytes at h
  split at h
  · exact PResult.noConfusion h
  split at h
  · exact PResult.noConfusion h
  next hlen hmask =>
  rw [PResult.bind_ok_iff] at h
  obtain ⟨⟨rx, r₁⟩, hg₁, h⟩ := h
  dsimp only at h
  rw [PResult.bind_ok_iff] at h
  obtain ⟨⟨tx, r₂⟩, hg₂, h⟩ := h
  dsimp only at h
  rw [PResult.bind_ok_iff] at h
  obtain ⟨⟨ua, r₃⟩, hg₃, h⟩ := h
  dsimp only at h
  rw [PResult.bind_ok_iff] at h
  obtain ⟨⟨ub, r₄⟩, hg₄, h⟩ := h
  dsimp only at h
  rw [PResult.bind_ok_iff] at h
  obtain ⟨⟨pnv, r₅⟩, hpn, h⟩ := h
  dsimp only at h
  split at h
  · exact PResult.noConfusion h
  next hslen =>
  have hS : rrStatusType (b₀ :: b₁ :: tl) = b₀ * 256 + b₁ := by
    simp [rrStatusType]
  obtain ⟨hrxs, hd₁⟩ := grabOptionalByte_ok hg₁
  obtain ⟨htxs, hd₂⟩ := grabOptionalByte_ok hg₂
  obtain ⟨huas, hd₃⟩ := grabOptionalPair_ok hg₃
  obtain ⟨hubs, hd₄⟩ := grabOptionalPair_ok hg₄
  simp only [List.drop_succ_cons, List.drop_zero] at hd₁
  have htl : tl = optList1 rx ++ optList1 tx ++ optList2 ua ++ optList2 ub ++ r₄ := by
    simp [hd₁, hd₂, hd₃, hd₄]
  match r₅, h with
  | [], h => exact PResult.noConfusion h
  | [_], h => exact PResult.noConfusion h
  | s₀ :: s₁ :: ps, h => ?_
  obtain ⟨h₁, h₂⟩ := PResult.ok.inj h |> Prod.mk.inj
  subst h₂
  subst h₁
  have hb₀ : b₀ < 256 := hb b₀ (by simp)
  have hb₁ : b₁ < 256 := hb b₁ (by simp)
  have hbtl : ∀ b ∈ tl, b < 256 := fun b hbm => hb b (by simp [hbm])
  have hr₄ : ∀ b ∈ r₄, b < 256 := by
    intro b hbm
    exact hbtl b (by rw [htl]; simp [hbm])
  rw [not_not] at hmask
  rw [hS] at hmask hrxs htxs huas hubs hpn ⊢
  have hdiv : (b₀ * 256 + b₁) / 256 = b₀ := by omega
  have hmod : (b₀ * 256 + b₁) % 256 = b₁ := by omega
  have hkey :
      b₀ :: b₁ :: tl =
        (b₀ * 256 + b₁) / 256 :: (b₀ * 256 + b₁) % 256 ::
        (optList1 rx ++ optList1 tx ++ optList2 ua ++ optList2 ub ++
         (if (b₀ * 256 + b₁) &&& 0x0010 = 0 then [pnv / 256, pnv % 256]
          else [pnv % 256]) ++
         ((s₀ * 256 + s₁) / 256 :: (s₀ * 256 + s₁) % 256 :: ps)) ∧
      ((b₀ * 256 + b₁) &&& 0x0010 ≠ 0 →
        pnv = interpretPacketNumberLo (pnv % 256) pn) := by
    split at hpn
    next hbit =>
      rw [beq_iff_eq] at hbit
      match r₄, hpn, hr₄, htl with
      | [], hpn, hr₄, htl => exact PResult.noConfusion hpn
      | [_], hpn, hr₄, htl => exact PResult.noConfusion hpn
      | v₀ :: v₁ :: rest', hpn, hr₄, htl => ?_
      obtain ⟨hp₁, hp₂⟩ := PResult.ok.inj hpn |> Prod.mk.inj
      subst hp₂
      subst hp₁
      have hv₀ : v₀ < 256 := hr₄ v₀ (by simp)
      have hv₁ : v₁ < 256 := hr₄ v₁ (by simp)
      have hs₀ : s₀ < 256 := hr₄ s₀ (by simp)
      have hs₁ : s₁ < 256 := hr₄ s₁ (by simp)
      refine ⟨?_, fun hc => absurd hbit hc⟩
      rw [hdiv, hmod, if_pos hbit, htl]
      have e₀ : (v₀ * 256 + v₁) / 256 = v₀ := by omega
      have e₁ : (v₀ * 256 + v₁) % 256 = v₁ := by omega
      have e₂ : (s₀ * 256 + s₁) / 256 = s₀ := by omega
      have e₃ : (s₀ * 256 + s₁) % 256 = s₁ := by omega
      simp [e₀, e₁, e₂, e₃]
    next hbit =>
      replace hbit : (b₀ * 256 + b₁) &&& 16 ≠ 0 := by
        simpa [beq_iff_eq] using hbit
      match r₄, hpn, hr₄, htl with
      | [], hpn, hr₄, htl => exact PResult.noConfusion hpn
      | v :: rest', hpn, hr₄, htl => ?_
      obtain ⟨hp₁, hp₂⟩ := PResult.ok.inj hpn |> Prod.mk.inj
      subst hp₂
      subst hp₁
      have hv : v < 256 := hr₄ v (by simp)
      have hs₀ : s₀ < 256 := hr₄ s₀ (by simp)
      have hs₁ : s₁ < 256 := hr₄ s₁ (by simp)
      have hvm : interpretPacketNumberLo v pn % 256 = v :=
        interpretPacketNumberLo_mod v pn hv
      refine ⟨?_, fun _ => by rw [hvm]⟩
      rw [hdiv, hmod, if_neg hbit, htl, hvm]
      have e₂ : (s₀ * 256 + s₁) / 256 = s₀ := by omega
      have e₃ : (s₀ * 256 + s₁) % 256 = s₁ := by omega
      simp [e₂, e₃]
  refine ⟨hmask, ?_, ?_, ?_, ?_, hkey.1, hkey.2⟩
  · simpa [beq_iff_eq] using hrxs
  · simpa [beq_iff_eq] using htxs
  · simpa [beq_iff_eq] using huas
  · simpa [beq_iff_eq] using hubs

/-- **C4.** For every stored 16-bit packet-number expectation `old = (hi, lo_old)`
and every compressed low byte `lo`, `interpret_packet_number_lo` reconstructs
`(hi <<< 8) ||| lo` when `lo ≥ lo_old` and `((hi + 1) <<< 8) ||| lo` when
`lo < lo_old`, the high-byte increment wrapping modulo 256 at `hi = 0xFF`. -/
theorem c4_packet_number_reconstruction (hi lo loOld : Nat)
    (hhi : hi < 256) (hlo : lo < 256) (holo : loOld < 256) :
    interpretPacketNumberLo lo (hi * 256 + loOld) =
      if loOld ≤ lo then hi * 256 + lo else ((hi + 1) % 256) * 256 + lo := by
  have h₁ : (hi * 256 + loOld) / 256 = hi := by omega
  have h₂ : (hi * 256 + loOld) % 256 = loOld := by omega
  by_cases hc : loOld ≤ lo <;>
    simp [interpretPacketNumberLo, ge_iff_le, h₁, h₂, hc]

theorem c4_packet_number_reconstruction_witness :
    interpretPacketNumberLo 1 (0xFF * 256 + 2) = 0x0001 := by
  have h := c4_packet_number_reconstruction 0xFF 1 2 (by decide) (by decide) (by decide)
  simpa using h

/-- **C2.** The receive-response decoder is *not* total: on the five-byte
payload `[0x00, 0xF8, 0x01, 0x02, 0x03]`, whose status bitmask `0x00F8`
passes the `S &&& 0xFFE0 == 0x00E0` check and marks `rx_buffers_used`,
`tx_buffers_free` and `unknown_a` present, the two single-byte fields leave a
single byte of payload, and the `unknown_a` branch then calls
`rest.split_at(2)` guarded only by `rest.is_empty()` — an out-of-bounds split,
i.e. a Rust panic. -/
theorem c2_receive_response_decode_panics :
    rrStatusType [0x00, 0xF8, 0x01, 0x02, 0x03] &&& 0xffe0 = 0x00e0 ∧
    rrReadFromBytes [0x00, 0xF8, 0x01, 0x02, 0x03] 0x40FB = .panicked := by
  decide

/-- **C3.** Decoding a receive-response payload reads the big-endian 16-bit
status bitmask `S` from the first 2 bytes, accepts only `S &&& 0xFFE0 = 0x00E0`,
then consumes `rx_buffers_used` (1 byte, bit `0x0001`), `tx_buffers_free`
(1 byte, bit `0x0002`), `unknown_a` (2 bytes, bit `0x0004`), `unknown_b`
(2 bytes, bit `0x0008`) and the packet number (2 bytes full form iff bit
`0x0010` is clear, else 1 compressed byte) strictly in that order, each
optional field present iff its bit is clear, followed by the 2-byte slot
counter and the inline packet bytes; and the spec's concrete example with
prior packet number `0x40FB` and payload `00 FE 02 FF 21 22 04` decodes to
`rx_buffers_used = 0x02`, all other optionals absent, packet number `0x40FF`,
slot counter `0x2122` and inline packets `[0x04]`. -/
theorem c3_receive_response_layout :
    (∀ (bytes : List Nat) (pn : Nat) (r : ReceiveResponse) (packets : List Nat),
      (∀ b ∈ bytes, b < 256) →
      rrReadFromBytes bytes pn = .ok (r, packets) →
      rrStatusType bytes &&& 0xffe0 = 0x00e0 ∧
      (r.rxBuffersUsed.isSome ↔ rrStatusType bytes &&& 0x0001 = 0) ∧
      (r.txBuffersFree.isSome ↔ rrStatusType bytes &&& 0x0002 = 0) ∧
      (r.unknown1.isSome ↔ rrStatusType bytes &&& 0x0004 = 0) ∧
      (r.unknown2.isSome ↔ rrStatusType bytes &&& 0x0008 = 0) ∧
      bytes =
        rrStatusType bytes / 256 :: rrStatusType bytes % 256 ::
        (optList1 r.rxBuffersUsed ++ optList1 r.txBuffersFree ++
         optList2 r.unknown1 ++ optList2 r.unknown2 ++
         (if rrStatusType bytes &&& 0x0010 = 0 then
            [r.packetNumber / 256, r.packetNumber % 256]
          else [r.packetNumber % 256]) ++
         (r.slotCounter / 256 :: r.slotCounter % 256 :: packets)) ∧
      (rrStatusType bytes &&& 0x0010 ≠ 0 →
        r.packetNumber = interpretPacketNumberLo (r.packetNumber % 256) pn)) ∧
    rrReadFromBytes [0x00, 0xFE, 0x02, 0xFF, 0x21, 0x22, 0x04] 0x40FB =
      .ok ({ rxBuffersUsed := some 0x02, txBuffersFree := none, unknown1 := none,
             unknown2 := none, packetNumber := 0x40FF, slotCounter := 0x2122 },
           [0x04]) :=
  ⟨fun _ _ _ _ hb h => rrReadFromBytes_ok_shape hb h, by decide⟩

theorem c3_receive_response_layout_witness :
    ((some 0x02 : Option Nat).isSome ↔
      rrStatusType [0x00, 0xFE, 0x02, 0xFF, 0x21, 0x22, 0x04] &&& 0x0001 = 0) :=
  (c3_receive_response_layout.1 [0x00, 0xFE, 0x02, 0xFF, 0x21, 0x22, 0x04] 0x40FB
    { rxBuffersUsed := some 0x02, txBuffersFree := none, unknown1 := none,
      unknown2 := none, packetNumber := 0x40FF, slotCounter := 0x2122 }
    [0x04] (by decide) (by decide)).2.1

/-- **C1.** The node-table builder violates the claimed page policy: the
mismatch branch of `NodeTableBuilder::push` tests `start_address ==
NodeAddress::ZERO` where the spec (and the code's own "we're mid-table"
comment) require `start_address != 0`.  Consequently a fresh builder fed a
mid-table page starting at address 3 inserts its entries instead of ignoring
them, the following empty terminator page commits a table assembled from a
sequence that began at 3 rather than 0, and a genuine zero-started page
arriving after a mismatch is dropped. -/
theorem c1_node_table_commit_without_zero_start :
    NodeTableBuilder.push ⟨none, []⟩ 3
        [⟨[0x04, 0xC0, 0x5B, 0x40, 0x00, 0x9A, 0x57, 0xA2], 3⟩] =
      (none, ⟨some 4, [(3, [0x04, 0xC0, 0x5B, 0x40, 0x00, 0x9A, 0x57, 0xA2])]⟩) ∧
    NodeTableBuilder.push ⟨some 4, [(3, [0x04, 0xC0, 0x5B, 0x40, 0x00, 0x9A, 0x57, 0xA2])]⟩ 4 [] =
      (some [(3, [0x04, 0xC0, 0x5B, 0x40, 0x00, 0x9A, 0x57, 0xA2])], ⟨none, []⟩) ∧
    NodeTableBuilder.push ⟨some 7, [(5, [0x04, 0xC0, 0x5B, 0x40, 0x00, 0x9A, 0x57, 0xA2])]⟩ 0
        [⟨[0x04, 0xC0, 0x5B, 0x40, 0x00, 0x9A, 0x57, 0xA2], 1⟩] =
      (none, ⟨none, []⟩) := by
  decide

lemma mapLookup_mapInsert {α : Type} (m : List (Nat × α)) (k : Nat) (v : α) :
    mapLookup (mapInsert m k v) k = some v := by
  induction m with
  | nil => simp [mapInsert, mapLookup]
  | cons hd t ih =>
    obtain ⟨k', v'⟩ := hd
    simp only [mapInsert]
    split
    · simp [mapLookup]
    · split
      · simp [mapLookup]
      · next h₁ h₂ => simp [mapLookup, h₂, ih]

/-- **C8 (counterexample).** A command request repeating the last sequence
number seen for its gateway is counted as retransmitted, but the
pending-commands entry is *not* left unchanged: `command_request` re-inserts
into `commands_awaiting_response` before the retransmission check, so the
second request's packet type `0xBB` and tail `[9]` overwrite the stored
`(0xAA, [1, 2])`. -/
theorem c8_retransmission_overwrites_pending :
    commandRequest
        (commandRequest ⟨[], [], 0, 0, 0⟩
          ⟨.toGateway 5, 0x0B0F, [0, 0, 0, 0xAA, 7, 1, 2]⟩)
        ⟨.toGateway 5, 0x0B0F, [0, 0, 0, 0xBB, 7, 9]⟩ =
      ⟨[(5, 7)], [(5 * 256 + 7, (0xBB, [9]))], 0, 1, 1⟩ ∧
    (0xBB, [9]) ≠ (0xAA, ([1, 2] : List Nat)) := by
  decide

/-- **C8 (amended).** When a command request repeats the last sequence number
seen for its gateway, the receiver counts it as a retransmitted command
request (leaving `command_requests` and the per-gateway sequence map
untouched) — but it still overwrites the pending-commands entry for
`(gateway, sequence)` with the new request's packet type and payload tail. -/
theorem c8_retransmitted_request_effect (st : CommandRequestState)
    (gw frameType : Nat) (payload : List Nat)
    (hlen : ¬ payload.length < 5)
    (hseq : mapLookup st.commandSequenceNumbers gw = some (payload.getD 4 0)) :
    commandRequest st ⟨.toGateway gw, frameType, payload⟩ =
      { st with
          commandsAwaitingResponse :=
            mapInsert st.commandsAwaitingResponse (gw * 256 + payload.getD 4 0)
              (payload.getD 3 0, payload.drop 5),
          retransmittedCommandRequests := st.retransmittedCommandRequests + 1 } := by
  simp [commandRequest, hlen, hseq]

theorem c8_retransmitted_request_effect_witness :
    commandRequest ⟨[(5, 7)], [], 0, 0, 0⟩
        ⟨.toGateway 5, 0x0B0F, [0, 0, 0, 0xAA, 7, 1]⟩ =
      ⟨[(5, 7)], [(5 * 256 + 7, (0xAA, [1]))], 0, 1, 0⟩ := by
  have h := c8_retransmitted_request_effect ⟨[(5, 7)], [], 0, 0, 0⟩ 5 0x0B0F
    [0, 0, 0, 0xAA, 7, 1] (by decide) (by decide)
  simpa [mapInsert] using h

/-! ### Hex digit strings -/

lemma hexFoldl_shift (ds : List Nat) (a : Nat) :
    ds.foldl (fun x d => x * 16 + d) a = a * 16 ^ ds.length + ofHexDigitsBE ds := by
  induction ds generalizing a with
  | nil => simp [ofHexDigitsBE]
  | cons d t ih =>
    simp only [List.foldl_cons, List.length_cons, ofHexDigitsBE] at *
    rw [ih (a * 16 + d), ih (0 * 16 + d)]
    ring

lemma ofHexDigitsBE_cons (d : Nat) (t : List Nat) :
    ofHexDigitsBE (d :: t) = d * 16 ^ t.length + ofHexDigitsBE t := by
  simp only [ofHexDigitsBE, List.foldl_cons]
  rw [hexFoldl_shift]
  simp only [ofHexDigitsBE]
  ring

lemma ofHexDigitsBE_lt (ds : List Nat) (h : ∀ d ∈ ds, d < 16) :
    ofHexDigitsBE ds < 16 ^ ds.length := by
  induction ds with
  | nil => simp [ofHexDigitsBE]
  | cons d t ih =>
    have hd : d < 16 := h d (by simp)
    have ht := ih fun x hx => h x (by simp [hx])
    rw [ofHexDigitsBE_cons]
    calc d * 16 ^ t.length + ofHexDigitsBE t
        < d * 16 ^ t.length + 16 ^ t.length := by omega
      _ = (d + 1) * 16 ^ t.length := by ring
      _ ≤ 16 * 16 ^ t.length := by
          have : d + 1 ≤ 16 := by omega
          exact Nat.mul_le_mul_right _ this
      _ = 16 ^ (d :: t).length := by rw [List.length_cons]; ring

lemma ofHexDigitsBE_ge (d : Nat) (t : List Nat) (hd : d ≠ 0) :
    16 ^ t.length ≤ ofHexDigitsBE (d :: t) := by
  rw [ofHexDigitsBE_cons]
  have : 1 * 16 ^ t.length ≤ d * 16 ^ t.length :=
    Nat.mul_le_mul_right _ (by omega)
  omega

lemma ofHexDigitsBE_dropWhile_zero (ds : List Nat) :
    ofHexDigitsBE (ds.dropWhile (· = 0)) = ofHexDigitsBE ds := by
  induction ds with
  | nil => rfl
  | cons d t ih =>
    by_cases hd : d = 0
    · subst hd
      rw [List.dropWhile_cons_of_pos (by simp)]
      rw [ih, ofHexDigitsBE_cons]
      simp
    · rw [List.dropWhile_cons_of_neg (by simp [hd])]

lemma head?_dropWhile_not {α : Type} (p : α → Bool) (ds : List α) (c : α)
    (h : (ds.dropWhile p).head? = some c) : ¬ p c := by
  induction ds with
  | nil => simp [List.dropWhile] at h
  | cons d t ih =>
    by_cases hd : p d
    · rw [List.dropWhile_cons_of_pos hd] at h
      exact ih h
    · rw [List.dropWhile_cons_of_neg hd] at h
      simp at h
      subst h
      exact fun hc => hd hc

lemma mem_dropWhile {α : Type} (p : α → Bool) (ds : List α) (c : α)
    (h : c ∈ ds.dropWhile p) : c ∈ ds :=
  (List.dropWhile_sublist p (l := ds)).subset h

lemma ofHexDigitsBE_inj_of_length (ds es : List Nat) (hlen : ds.length = es.length)
    (hds : ∀ d ∈ ds, d < 16) (hes : ∀ d ∈ es, d < 16)
    (hv : ofHexDigitsBE ds = ofHexDigitsBE es) : ds = es := by
  induction ds generalizing es with
  | nil => cases es <;> simp_all
  | cons d t ih =>
    cases es with
    | nil => simp at hlen
    | cons e u =>
      simp only [List.length_cons, Nat.succ.injEq] at hlen
      rw [ofHexDigitsBE_cons, ofHexDigitsBE_cons, hlen] at hv
      have htv := ofHexDigitsBE_lt t fun x hx => hds x (by simp [hx])
      have huv := ofHexDigitsBE_lt u fun x hx => hes x (by simp [hx])
      rw [hlen] at htv
      have hde : d = e ∧ ofHexDigitsBE t = ofHexDigitsBE u := by
        constructor
        · by_contra hne
          rcases Nat.lt_or_ge d e with hlt | hge
          · nlinarith [Nat.mul_le_mul_right (16 ^ u.length) (Nat.succ_le_of_lt hlt)]
          · have : e < d := by omega
            nlinarith [Nat.mul_le_mul_right (16 ^ u.length) (Nat.succ_le_of_lt this)]
        · by_contra hne
          rcases Nat.lt_or_ge d e with hlt | hge
          · nlinarith [Nat.mul_le_mul_right (16 ^ u.length) (Nat.succ_le_of_lt hlt)]
          · rcases Nat.lt_or_ge e d with hlt' | hge'
            · nlinarith [Nat.mul_le_mul_right (16 ^ u.length) (Nat.succ_le_of_lt hlt')]
            · have : d = e := by omega
              subst this
              omega
      obtain ⟨rfl, hveq⟩ := hde
      rw [ih u hlen (fun x hx => hds x (by simp [hx]))
        (fun x hx => hes x (by simp [hx])) hveq]

lemma ofHexDigitsBE_canonical (ds es : List Nat)
    (hds : ∀ d ∈ ds, d < 16) (hes : ∀ d ∈ es, d < 16)
    (hd0 : ∀ c ∈ ds.head?, c ≠ 0) (he0 : ∀ c ∈ es.head?, c ≠ 0)
    (hv : ofHexDigitsBE ds = ofHexDigitsBE es) : ds = es := by
  have hlen : ds.length = es.length := by
    match ds, es with
    | [], [] => rfl
    | [], e :: u =>
      exfalso
      have := ofHexDigitsBE_ge e u (he0 e (by simp))
      have h16 : 0 < 16 ^ u.length := Nat.pos_pow_of_pos _ (by omega)
      rw [show ofHexDigitsBE [] = 0 from rfl] at hv
      omega
    | d :: t, [] =>
      exfalso
      have := ofHexDigitsBE_ge d t (hd0 d (by simp))
      have h16 : 0 < 16 ^ t.length := Nat.pos_pow_of_pos _ (by omega)
      rw [show ofHexDigitsBE [] = 0 from rfl] at hv
      omega
    | d :: t, e :: u =>
      have h₁ := ofHexDigitsBE_ge d t (hd0 d (by simp))
      have h₂ := ofHexDigitsBE_lt (d :: t) hds
      have h₃ := ofHexDigitsBE_ge e u (he0 e (by simp))
      have h₄ := ofHexDigitsBE_lt (e :: u) hes
      simp only [List.length_cons] at *
      have : t.length = u.length := by
        by_contra hne
        rcases Nat.lt_or_ge t.length u.length with hlt | hge
        · have : 16 ^ (t.length + 1) ≤ 16 ^ u.length :=
            Nat.pow_le_pow_right (by omega) (by omega)
          omega
        · have hlt' : u.length < t.length := by omega
          have : 16 ^ (u.length + 1) ≤ 16 ^ t.length :=
            Nat.pow_le_pow_right (by omega) (by omega)
          omega
      simp [this]
  exact ofHexDigitsBE_inj_of_length ds es hlen hds hes hv

/-! ### Bridging characters and digits -/

lemma hexDigit?_n2h : ∀ d, d < 16 → hexDigit? (n2h d) = some d := by decide

lemma n2h_ne_plus : ∀ d, d < 16 → n2h d ≠ '+' := by decide

lemma hexAccumGo_map_n2h (ds : List Nat) (h : ∀ d ∈ ds, d < 16) (a : Nat) :
    (ds.map n2h).foldl
        (fun acc c => acc.bind fun x => (hexDigit? c).map fun d => x * 16 + d)
        (some a) =
      some (ds.foldl (fun x d => x * 16 + d) a) := by
  induction ds generalizing a with
  | nil => rfl
  | cons d t ih =>
    have hd : d < 16 := h d (by simp)
    simp only [List.map_cons, List.foldl_cons, hexDigit?_n2h d hd, Option.bind_some,
      Option.map_some]
    exact ih (fun x hx => h x (by simp [hx])) (a * 16 + d)

lemma hexAccum?_map_n2h (ds : List Nat) (h : ∀ d ∈ ds, d < 16) :
    hexAccum? (ds.map n2h) = some (ofHexDigitsBE ds) :=
  hexAccumGo_map_n2h ds h 0

lemma hexCore_map_n2h (ds : List Nat) (hne : ds ≠ []) (h : ∀ d ∈ ds, d < 16)
    (hlt : ofHexDigitsBE ds < 2 ^ 64) :
    hexCore (ds.map n2h) = some (ofHexDigitsBE ds) := by
  unfold hexCore
  rw [if_neg (by simpa using hne)]
  rw [hexAccum?_map_n2h ds h]
  simp only []
  rw [if_pos hlt]

lemma hexParseU64_map_n2h (ds : List Nat) (hne : ds ≠ []) (h : ∀ d ∈ ds, d < 16)
    (hlt : ofHexDigitsBE ds < 2 ^ 64) :
    hexParseU64 (ds.map n2h) = some (ofHexDigitsBE ds) := by
  unfold hexParseU64
  rw [if_neg, hexCore_map_n2h ds hne h hlt]
  cases ds with
  | nil => exact absurd rfl hne
  | cons d t =>
    simp only [List.map_cons, List.head?_cons]
    intro hc
    exact n2h_ne_plus d (h d (by simp)) (Option.some.inj hc)

lemma and_fifteen (x : Nat) : x &&& 15 = x % 16 := by
  have h := Nat.and_pow_two_sub_one_eq_mod x 4
  norm_num at h
  exact h

lemma shiftRight_four (x : Nat) : x >>> 4 = x / 16 := by
  have h := Nat.shiftRight_eq_div_pow x 4
  norm_num at h
  exact h


lemma barcode_format_then_parse (addr : List Nat)
    (hlen : addr.length = 8) (hb : ∀ b ∈ addr, b < 256)
    (hpre : addr.getD 0 0 = 0x04 ∧ addr.getD 1 0 = 0xc0 ∧ addr.getD 2 0 = 0x5b)
    (hval : 16 ≤ addr.getD 3 0 % 16 * 2 ^ 32 + addr.getD 4 0 * 2 ^ 24 +
      addr.getD 5 0 * 2 ^ 16 + addr.getD 6 0 * 2 ^ 8 + addr.getD 7 0) :
    ∃ s, barcodeFormat addr = some s ∧ barcodeParse s = some addr := by
  match addr, hlen with
  | [b₀, b₁, b₂, b₃, b₄, b₅, b₆, b₇], _ => ?_
  simp only [List.getD_cons_zero, List.getD_cons_succ] at hpre hval
  obtain ⟨rfl, rfl, rfl⟩ := hpre
  have hb₃ : b₃ < 256 := hb b₃ (by simp)
  have hb₄ : b₄ < 256 := hb b₄ (by simp)
  have hb₅ : b₅ < 256 := hb b₅ (by simp)
  have hb₆ : b₆ < 256 := hb b₆ (by simp)
  have hb₇ : b₇ < 256 := hb b₇ (by simp)
  have hnib : barcodeNibbles [0x04, 0xc0, 0x5b, b₃, b₄, b₅, b₆, b₇] =
      [b₃ % 16, b₄ / 16, b₄ % 16, b₅ / 16, b₅ % 16, b₆ / 16, b₆ % 16, b₇ / 16, b₇ % 16] := by
    simp [barcodeNibbles, and_fifteen, shiftRight_four]
  set ds : List Nat :=
    [b₃ % 16, b₄ / 16, b₄ % 16, b₅ / 16, b₅ % 16, b₆ / 16, b₆ % 16, b₇ / 16, b₇ % 16]
    with hds_def
  have hds : ∀ d ∈ ds, d < 16 := by
    intro d hd
    simp only [hds_def, List.mem_cons, List.not_mem_nil, or_false] at hd
    rcases hd with rfl | rfl | rfl | rfl | rfl | rfl | rfl | rfl | rfl <;> omega
  have hv : ofHexDigitsBE ds =
      b₃ % 16 * 2 ^ 32 + b₄ * 2 ^ 24 + b₅ * 2 ^ 16 + b₆ * 2 ^ 8 + b₇ := by
    simp only [hds_def, ofHexDigitsBE, List.foldl_cons, List.foldl_nil]
    omega
  set dropped := ds.dropWhile (· = 0) with hdropped
  have hmemd : ∀ d ∈ dropped, d < 16 := fun d hd => hds d (mem_dropWhile _ ds d hd)
  have hvd : ofHexDigitsBE dropped =
      b₃ % 16 * 2 ^ 32 + b₄ * 2 ^ 24 + b₅ * 2 ^ 16 + b₆ * 2 ^ 8 + b₇ := by
    rw [hdropped, ofHexDigitsBE_dropWhile_zero, hv]
  have hv36 : ofHexDigitsBE dropped < 2 ^ 36 := by
    rw [hvd]; omega
  have hlen2 : 2 ≤ dropped.length := by
    by_contra hc
    push_neg at hc
    have hlt := ofHexDigitsBE_lt dropped hmemd
    have : (16 : Nat) ^ dropped.length ≤ 16 ^ 1 :=
      Nat.pow_le_pow_right (by omega) (by omega)
    rw [hvd] at hlt
    simp at this
    omega
  have hne : dropped ≠ [] := by
    intro hcon
    rw [hcon] at hlen2
    simp at hlen2
  have hfmt : barcodeFormat [0x04, 0xc0, 0x5b, b₃, b₄, b₅, b₆, b₇] =
      some (n2h (b₃ / 16) :: '-' :: (dropped.map n2h ++ [barcodeCrc [0x04, 0xc0, 0x5b, b₃, b₄, b₅, b₆, b₇]])) := by
    rw [barcodeFormat, if_pos (by simp)]
    rw [hnib, ← hdropped]
    simp [shiftRight_four]
  refine ⟨_, hfmt, ?_⟩
  rw [barcodeParse]
  rw [if_neg]
  case hnc =>
    simp only [not_or, not_lt]
    constructor
    · simp
    · simp only [List.length_cons, List.length_append, List.length_map, List.length_cons]
      omega
  have hgd : (n2h (b₃ / 16) :: '-' ::
      (dropped.map n2h ++ [barcodeCrc [0x04, 0xc0, 0x5b, b₃, b₄, b₅, b₆, b₇]])).getD 0 ' ' =
      n2h (b₃ / 16) := rfl
  rw [hgd]
  have hlead : hexParseU64 [n2h (b₃ / 16)] = some (b₃ / 16) := by
    have := hexParseU64_map_n2h [b₃ / 16] (by simp) (by intro d hd; simp at hd; omega)
      (by simp only [ofHexDigitsBE, List.foldl_cons, List.foldl_nil]; omega)
    simpa [ofHexDigitsBE] using this
  rw [hlead]
  simp only []
  -- split the final character back off
  have hsplit :
      (n2h (b₃ / 16) :: '-' ::
        (dropped.map n2h ++ [barcodeCrc [0x04, 0xc0, 0x5b, b₃, b₄, b₅, b₆, b₇]])) =
      (n2h (b₃ / 16) :: '-' :: dropped.map n2h) ++
        [barcodeCrc [0x04, 0xc0, 0x5b, b₃, b₄, b₅, b₆, b₇]] := by
    simp
  have hlentot :
      (n2h (b₃ / 16) :: '-' ::
        (dropped.map n2h ++ [barcodeCrc [0x04, 0xc0, 0x5b, b₃, b₄, b₅, b₆, b₇]])).length - 1 =
      (n2h (b₃ / 16) :: '-' :: dropped.map n2h).length := by
    simp
  rw [hlentot, hsplit, List.take_left' rfl, List.drop_left' rfl]
  have hrest : (n2h (b₃ / 16) :: '-' :: dropped.map n2h).drop 2 = dropped.map n2h := rfl
  rw [hrest]
  rw [hexParseU64_map_n2h dropped hne hmemd (by omega)]
  simp only []
  have hP : (0x04c05b0 ||| (b₃ / 16)) = 0x04c05b0 + b₃ / 16 :=
    (by decide : ∀ d, d < 16 → 0x04c05b0 ||| d = 0x04c05b0 + d) (b₃ / 16) (by omega)
  have hor : ofHexDigitsBE dropped ||| ((0x04c05b0 ||| (b₃ / 16)) <<< 36) =
      (0x04c05b0 + b₃ / 16) * 2 ^ 36 + ofHexDigitsBE dropped := by
    rw [hP, Nat.shiftLeft_eq, Nat.lor_comm, mul_comm]
    exact (Nat.mul_add_lt_is_or hv36 _).symm
  rw [hor]
  have haddr : u64ToBeBytes ((0x04c05b0 + b₃ / 16) * 2 ^ 36 + ofHexDigitsBE dropped) =
      [0x04, 0xc0, 0x5b, b₃, b₄, b₅, b₆, b₇] := by
    rw [hvd]
    simp only [u64ToBeBytes, List.cons.injEq, and_true]
    omega
  rw [haddr]
  rw [if_pos rfl]



lemma upperHex_fact : ∀ c ∈ "0123456789ABCDEF".toList,
    n2h ((hexDigit? c).getD 0) = c ∧ (hexDigit? c).getD 0 < 16 := by decide

lemma upperHex_digits (cs : List Char)
    (h : ∀ c ∈ cs, c ∈ "0123456789ABCDEF".toList) :
    ∃ ds : List Nat, (∀ d ∈ ds, d < 16) ∧ cs = ds.map n2h := by
  induction cs with
  | nil => exact ⟨[], by simp, rfl⟩
  | cons c t ih =>
    obtain ⟨ds, hds, rfl⟩ := ih fun x hx => h x (by simp [hx])
    obtain ⟨hn, hd⟩ := upperHex_fact c (h c (by simp))
    refine ⟨(hexDigit? c).getD 0 :: ds, ?_, by simp [hn]⟩
    intro d hd'
    simp only [List.mem_cons] at hd'
    rcases hd' with rfl | hx
    · exact hd
    · exact hds _ hx

lemma hexParseU64_map_n2h_inv (ds : List Nat) (hne : ds ≠ []) (h : ∀ d ∈ ds, d < 16)
    {v : Nat} (hv : hexParseU64 (ds.map n2h) = some v) :
    v = ofHexDigitsBE ds ∧ ofHexDigitsBE ds < 2 ^ 64 := by
  unfold hexParseU64 at hv
  rw [if_neg] at hv
  · unfold hexCore at hv
    rw [if_neg (by simpa using hne), hexAccum?_map_n2h ds h] at hv
    simp only [] at hv
    split at hv
    · next hlt => exact ⟨(Option.some.inj hv).symm, hlt⟩
    · exact Option.noConfusion hv
  · cases ds with
    | nil => exact absurd rfl hne
    | cons d t =>
      simp only [List.map_cons, List.head?_cons]
      intro hc
      exact n2h_ne_plus d (h d (by simp)) (Option.some.inj hc)

lemma barcode_parse_then_format (s : List Char) (addr : List Nat)
    (hhex0 : s.getD 0 ' ' ∈ "0123456789ABCDEF".toList)
    (hhexr : ∀ c ∈ (s.take (s.length - 1)).drop 2, c ∈ "0123456789ABCDEF".toList)
    (hnz : ((s.take (s.length - 1)).drop 2).head? ≠ some '0')
    (hlen9 : ((s.take (s.length - 1)).drop 2).length ≤ 9)
    (h : barcodeParse s = some addr) :
    barcodeFormat addr = some s := by
  rw [barcodeParse] at h
  split at h
  · exact Option.noConfusion h
  next hguard =>
  rw [not_or, not_lt] at hguard
  obtain ⟨hdash, hlen5⟩ := hguard
  rw [not_not] at hdash
  split at h
  · exact Option.noConfusion h
  next lead hlead =>
  split at h
  · exact Option.noConfusion h
  next restVal hrest =>
  split at h
  case isFalse => exact Option.noConfusion h
  next hcrc =>
  -- the accepted branch
  obtain rfl : u64ToBeBytes (restVal ||| ((0x04c05b0 ||| lead) <<< 36)) = addr :=
    Option.some.inj h
  -- the leading character is an uppercase hex digit with value `lead`
  obtain ⟨hn0, hd0⟩ := upperHex_fact _ hhex0
  have hlead' : lead = (hexDigit? (s.getD 0 ' ')).getD 0 := by
    have hx := hexParseU64_map_n2h_inv [(hexDigit? (s.getD 0 ' ')).getD 0] (by simp)
      (by intro d hd; simp only [List.mem_cons, List.not_mem_nil, or_false] at hd; omega)
      (v := lead) (by rw [List.map_cons, List.map_nil, hn0]; exact hlead)
    rw [hx.1]
    simp [ofHexDigitsBE]
  have hld16 : lead < 16 := by rw [hlead']; exact hd0
  -- the digit part of the string denotes some digit list `ds`
  obtain ⟨ds, hds, hmap⟩ := upperHex_digits _ hhexr
  have hne : ds ≠ [] := by
    intro hcon
    rw [hcon] at hmap
    simp only [List.map_nil] at hmap
    rw [hmap] at hrest
    simp [hexParseU64, hexCore] at hrest
  obtain ⟨hrv, -⟩ := hexParseU64_map_n2h_inv ds hne hds (hmap ▸ hrest)
  have hd0' : ∀ c ∈ ds.head?, c ≠ 0 := by
    intro c hc hc0
    subst hc0
    cases ds with
    | nil => simp at hc
    | cons d t =>
      simp only [List.head?_cons, Option.mem_def, Option.some.injEq] at hc
      subst hc
      rw [hmap] at hnz
      simp only [List.map_cons] at hnz
      exact hnz rfl
  have hlends : ds.length ≤ 9 := by
    have hlm := congrArg List.length hmap
    simp only [List.length_map] at hlm
    omega
  -- abstract the digit value
  obtain ⟨V, hV⟩ : ∃ V, ofHexDigitsBE ds = V := ⟨_, rfl⟩
  have hV36 : V < 2 ^ 36 := by
    have hlt := ofHexDigitsBE_lt ds hds
    have hp : (16 : Nat) ^ ds.length ≤ 16 ^ 9 := Nat.pow_le_pow_right (by omega) hlends
    rw [hV] at hlt
    have h169 : (16 : Nat) ^ 9 = 2 ^ 36 := by norm_num
    omega
  rw [hV] at hrv
  rw [hrv] at hcrc ⊢
  -- the packed address value and its bytes
  have hP : (0x04c05b0 ||| lead) = 0x04c05b0 + lead :=
    (by decide : ∀ d, d < 16 → 0x04c05b0 ||| d = 0x04c05b0 + d) lead hld16
  have hor : V ||| ((0x04c05b0 ||| lead) <<< 36) = (0x04c05b0 + lead) * 2 ^ 36 + V := by
    rw [hP, Nat.shiftLeft_eq, Nat.lor_comm, mul_comm]
    exact (Nat.mul_add_lt_is_or hV36 _).symm
  rw [hor] at hcrc ⊢
  have haddr : u64ToBeBytes ((0x04c05b0 + lead) * 2 ^ 36 + V) =
      [0x04, 0xc0, 0x5b, lead * 16 + V / 2 ^ 32,
       V / 2 ^ 24 % 256, V / 2 ^ 16 % 256, V / 2 ^ 8 % 256, V % 256] := by
    simp only [u64ToBeBytes, List.cons.injEq, and_true]
    omega
  rw [haddr] at hcrc ⊢
  -- format the computed address
  rw [barcodeFormat, if_pos (by simp)]
  have hnib :
      barcodeNibbles [0x04, 0xc0, 0x5b, lead * 16 + V / 2 ^ 32,
        V / 2 ^ 24 % 256, V / 2 ^ 16 % 256, V / 2 ^ 8 % 256, V % 256] =
      [(lead * 16 + V / 2 ^ 32) % 16,
       V / 2 ^ 24 % 256 / 16, V / 2 ^ 24 % 256 % 16,
       V / 2 ^ 16 % 256 / 16, V / 2 ^ 16 % 256 % 16,
       V / 2 ^ 8 % 256 / 16, V / 2 ^ 8 % 256 % 16,
       V % 256 / 16, V % 256 % 16] := by
    simp [barcodeNibbles, and_fifteen, shiftRight_four]
  rw [hnib]
  -- the nine padded nibbles denote `V` again, so by canonicity the skipped
  -- form is exactly `ds`
  have hnibv : ofHexDigitsBE
      [(lead * 16 + V / 2 ^ 32) % 16,
       V / 2 ^ 24 % 256 / 16, V / 2 ^ 24 % 256 % 16,
       V / 2 ^ 16 % 256 / 16, V / 2 ^ 16 % 256 % 16,
       V / 2 ^ 8 % 256 / 16, V / 2 ^ 8 % 256 % 16,
       V % 256 / 16, V % 256 % 16] = V := by
    simp only [ofHexDigitsBE, List.foldl_cons, List.foldl_nil]
    omega
  have hdrop : List.dropWhile (fun x => decide (x = 0))
      [(lead * 16 + V / 2 ^ 32) % 16,
       V / 2 ^ 24 % 256 / 16, V / 2 ^ 24 % 256 % 16,
       V / 2 ^ 16 % 256 / 16, V / 2 ^ 16 % 256 % 16,
       V / 2 ^ 8 % 256 / 16, V / 2 ^ 8 % 256 % 16,
       V % 256 / 16, V % 256 % 16] = ds := by
    apply ofHexDigitsBE_canonical
    · intro d hd
      have hmem := mem_dropWhile _ _ _ hd
      simp only [List.mem_cons, List.not_mem_nil, or_false] at hmem
      rcases hmem with rfl | rfl | rfl | rfl | rfl | rfl | rfl | rfl | rfl <;> omega
    · exact hds
    · intro c hc
      have := head?_dropWhile_not _ _ _ hc
      simpa using this
    · exact hd0'
    · rw [ofHexDigitsBE_dropWhile_zero, hnibv, hV]
  rw [hdrop]
  have hb3div : (lead * 16 + V / 2 ^ 32) / 16 = lead := by
    have : V / 2 ^ 32 < 16 := by omega
    omega
  simp only [List.getD_cons_zero, List.getD_cons_succ, shiftRight_four]
  rw [hb3div]
  -- decompose `s` as first char, dash, digit characters, check character
  match s, hlen5, hdash, hhex0, hn0, hlead', hmap, hcrc with
  | c₀ :: c₁ :: t, hl5, hdash, hhex0, hn0, hlead', hmap, hcrc => ?_
  have hc₁ : c₁ = '-' := by simpa using hdash
  subst hc₁
  simp only [List.getD_cons_zero] at hn0 hlead'
  simp only [List.length_cons] at hmap hcrc hl5
  have htl : 3 ≤ t.length := by omega
  have hidx : t.length + 1 + 1 - 1 = t.length + 1 := by omega
  rw [hidx] at hmap hcrc
  obtain ⟨m, hm⟩ : ∃ m, t.length = m + 1 := ⟨t.length - 1, by omega⟩
  have htake : (c₀ :: '-' :: t).take (t.length + 1) = c₀ :: '-' :: t.take m := by
    rw [List.take_succ_cons, hm, List.take_succ_cons]
  have hdropS : (c₀ :: '-' :: t).drop (t.length + 1) = t.drop m := by
    rw [List.drop_succ_cons, hm, List.drop_succ_cons]
  rw [htake] at hmap
  rw [hdropS] at hcrc
  simp only [List.drop_succ_cons, List.drop_zero] at hmap
  have hsplit : t = t.take m ++ t.drop m := (List.take_append_drop m t).symm
  have hc₀ : n2h lead = c₀ := by rw [hlead']; exact hn0
  rw [hc₀, ← hmap, ← hcrc]
  rw [List.append_assoc, ← hsplit]
  simp


/-- **C5 (counterexample).** The barcode round trip fails in both directions:
the address `04 C0 5B 40 00 00 00 00` (all nine emitted nibbles zero) formats
as the three-character string `4-V`, which the parser rejects for being
shorter than five characters — the formatter's `i < 10` skip guard never
forces the final nibble out; and the parser accepts `4-09A57A2L` (a leading
zero in the digit part), which formats back as the different string
`4-9A57A2L`. -/
theorem c5_barcode_roundtrip_counterexample :
    barcodeFormat [0x04, 0xC0, 0x5B, 0x40, 0x00, 0x00, 0x00, 0x00] = some ['4', '-', 'V'] ∧
    barcodeParse ['4', '-', 'V'] = none ∧
    barcodeParse ['4', '-', '0', '9', 'A', '5', '7', 'A', '2', 'L'] =
      some [0x04, 0xC0, 0x5B, 0x40, 0x00, 0x9A, 0x57, 0xA2] ∧
    barcodeFormat [0x04, 0xC0, 0x5B, 0x40, 0x00, 0x9A, 0x57, 0xA2] =
      some ['4', '-', '9', 'A', '5', '7', 'A', '2', 'L'] ∧
    (['4', '-', '0', '9', 'A', '5', '7', 'A', '2', 'L'] : List Char) ≠
      ['4', '-', '9', 'A', '5', '7', 'A', '2', 'L'] := by
  decide

/-- **C5 (amended).** Barcode encode/decode are mutually inverse on the
domains where the code's skip and parse rules keep the text canonical: for
every 8-byte address with prefix `04 C0 5B` whose nine barcode nibbles encode
a value of at least 16 (so at least two digit characters are emitted),
parsing the formatted string returns exactly that address; and for every
string the parser accepts whose first character and digit characters are
uppercase hex, whose digit part has no leading zero, and whose digit part is
at most nine characters, formatting the parsed address reproduces the
original string. -/
theorem c5_barcode_roundtrip_amended :
    (∀ addr : List Nat,
      addr.length = 8 → (∀ b ∈ addr, b < 256) →
      addr.getD 0 0 = 0x04 ∧ addr.getD 1 0 = 0xc0 ∧ addr.getD 2 0 = 0x5b →
      16 ≤ addr.getD 3 0 % 16 * 2 ^ 32 + addr.getD 4 0 * 2 ^ 24 +
        addr.getD 5 0 * 2 ^ 16 + addr.getD 6 0 * 2 ^ 8 + addr.getD 7 0 →
      ∃ s, barcodeFormat addr = some s ∧ barcodeParse s = some addr) ∧
    (∀ (s : List Char) (addr : List Nat),
      s.getD 0 ' ' ∈ "0123456789ABCDEF".toList →
      (∀ c ∈ (s.take (s.length - 1)).drop 2, c ∈ "0123456789ABCDEF".toList) →
      ((s.take (s.length - 1)).drop 2).head? ≠ some '0' →
      ((s.take (s.length - 1)).drop 2).length ≤ 9 →
      barcodeParse s = some addr →
      barcodeFormat addr = some s) :=
  ⟨barcode_format_then_parse, barcode_parse_then_format⟩

theorem c5_barcode_roundtrip_amended_witness :
    barcodeFormat [0x04, 0xC0, 0x5B, 0x40, 0x00, 0x9A, 0x57, 0xA2] =
      some ['4', '-', '9', 'A', '5', '7', 'A', '2', 'L'] :=
  c5_barcode_roundtrip_amended.2 ['4', '-', '9', 'A', '5', '7', 'A', '2', 'L']
    [0x04, 0xC0, 0x5B, 0x40, 0x00, 0x9A, 0x57, 0xA2]
    (by decide) (by decide) (by decide) (by decide) (by decide)

lemma parseFrameFromBuffer_sum (crcFn : List Nat → Nat) (r : LinkReceiver) :
    (parseFrameFromBuffer crcFn r).counters.frames +
      (parseFrameFromBuffer crcFn r).counters.runts +
      (parseFrameFromBuffer crcFn r).counters.checksums =
    r.counters.frames + r.counters.runts + r.counters.checksums + 1 ∧
    (parseFrameFromBuffer crcFn r).counters.giants = r.counters.giants := by
  unfold parseFrameFromBuffer
  split
  · exact ⟨by simp; omega, by simp⟩
  · split
    · exact ⟨by simp; omega, by simp⟩
    · exact ⟨by simp; omega, by simp⟩

lemma pushU8_state (crcFn : List Nat → Nat) (r : LinkReceiver) (b : Nat) :
    (pushU8 crcFn r b).state = nextLinkState r.state r.buffer.length b := by
  cases hs : r.state <;>
    simp only [pushU8, nextLinkState, hs]
  case frame => split_ifs <;> rfl
  case frameEscape =>
    split_ifs <;> (try rfl) <;> (cases unescapedByte b <;> rfl)


lemma pushU8_sum (crcFn : List Nat → Nat) (r : LinkReceiver) (b : Nat) :
    (pushU8 crcFn r b).counters.frames + (pushU8 crcFn r b).counters.runts +
        (pushU8 crcFn r b).counters.checksums =
      r.counters.frames + r.counters.runts + r.counters.checksums +
        (if r.state = LinkState.frameEscape ∧ b = 0x08 then 1 else 0) := by
  obtain ⟨hps, -⟩ := parseFrameFromBuffer_sum crcFn r
  cases hs : r.state
  case frameEscape =>
    by_cases hb : b = 0x08
    · simp only [pushU8, hs, if_pos hb]
      simp only [hb, and_true, if_pos rfl]
      split_ifs <;> simp <;> omega
    · simp only [pushU8, hs, if_neg hb]
      cases hu : unescapedByte b <;>
        simp only [] <;>
        split_ifs <;>
        simp_all
  all_goals
    simp only [pushU8, hs] <;>
      split_ifs <;>
      simp_all


lemma pushU8_giants (crcFn : List Nat → Nat) (r : LinkReceiver) (b : Nat) :
    (pushU8 crcFn r b).counters.giants =
      r.counters.giants +
        (if nextLinkState r.state r.buffer.length b = LinkState.giant ∧
            r.state ≠ LinkState.giant ∧ r.state ≠ LinkState.giantEscape then 1 else 0) := by
  obtain ⟨-, hpg⟩ := parseFrameFromBuffer_sum crcFn r
  cases hs : r.state
  case frameEscape =>
    by_cases hb : b = 0x08
    · simp only [pushU8, nextLinkState, hs, if_pos hb]
      simp_all
    · simp only [pushU8, nextLinkState, hs, if_neg hb]
      cases hu : unescapedByte b <;>
        simp only [] <;>
        split_ifs <;>
        simp_all
  all_goals
    simp only [pushU8, nextLinkState, hs] <;>
      split_ifs <;>
      simp_all


lemma linkRun_counts (crcFn : List Nat → Nat) (bytes : List Nat) :
    ∀ r : LinkReceiver,
      (linkRun crcFn r bytes).counters.frames + (linkRun crcFn r bytes).counters.runts +
          (linkRun crcFn r bytes).counters.checksums =
        r.counters.frames + r.counters.runts + r.counters.checksums +
          frameTermEvents crcFn r bytes ∧
      (linkRun crcFn r bytes).counters.giants =
        r.counters.giants + giantEntryEvents crcFn r bytes := by
  induction bytes with
  | nil =>
    intro r
    simp [linkRun, frameTermEvents, giantEntryEvents]
  | cons b bs ih =>
    intro r
    have h₁ := pushU8_sum crcFn r b
    have h₂ := pushU8_giants crcFn r b
    have h₃ := ih (pushU8 crcFn r b)
    simp only [linkRun, List.foldl_cons] at h₃ ⊢
    unfold frameTermEvents giantEntryEvents
    constructor <;> omega

set_option maxRecDepth 100000 in
/-- **C6 (counterexample).** The claimed identity `frames + runts + giants +
checksums = number of 7E-08 terminator events` fails: feeding `7E 07` followed
by 257 data bytes overflows the body buffer and increments `giants` at the
transition into Giant, with no terminator sequence anywhere in the stream, so
the left side is 1 while the right side is 0. -/
theorem c6_link_counter_identity_counterexample :
    (linkRun linkCrc initialReceiver (0x7e :: 0x07 :: List.replicate 257 0)).counters =
      ⟨0, 0, 1, 0, 0⟩ ∧
    terminatorEvents linkCrc initialReceiver (0x7e :: 0x07 :: List.replicate 257 0) = 0 := by
  decide

/-- **C6 (amended).** For every byte stream, `frames + runts + checksums`
equals the number of terminator events reached from FrameEscape (the
transitions that run `parse_frame_from_buffer`, each counting the terminated
body in exactly one of the three categories), and `giants` equals the number
of transitions into Giant from a state other than Giant or GiantEscape.  The
identity holds for any CRC function, so it does not depend on the modelled
CRC table. -/
theorem c6_link_counter_identity (crcFn : List Nat → Nat) (bytes : List Nat) :
    (linkRun crcFn initialReceiver bytes).counters.frames +
        (linkRun crcFn initialReceiver bytes).counters.runts +
        (linkRun crcFn initialReceiver bytes).counters.checksums =
      frameTermEvents crcFn initialReceiver bytes ∧
    (linkRun crcFn initialReceiver bytes).counters.giants =
      giantEntryEvents crcFn initialReceiver bytes := by
  have h := linkRun_counts crcFn bytes initialReceiver
  simpa [initialReceiver] using h

lemma seedLoop_length (fuel : Nat) :
    ∀ (i stop : Nat) (t : Int) (times : List Int),
      (seedLoop fuel i stop t times).length = times.length := by
  induction fuel with
  | zero => intro i stop t times; rfl
  | succ fuel ih =>
    intro i stop t times
    unfold seedLoop
    split
    · rfl
    · rw [ih]
      simp

lemma seedLoop_get (fuel : Nat) :
    ∀ (i stop : Nat) (t : Int) (times : List Int),
      i < 48 → stop < 48 → i ≠ stop → times.length = 48 →
      (i + 48 - stop) % 48 ≤ fuel →
      ∀ k, k < 48 →
        (seedLoop fuel i stop t times)[k]? =
          if 1 ≤ (i + 48 - k) % 48 ∧ (i + 48 - k) % 48 < (i + 48 - stop) % 48 then
            some (t - 5000 * (((i + 48 - k) % 48 : Nat) : Int))
          else times[k]? := by
  induction fuel with
  | zero =>
    intro i stop t times hi hs hne hlen hfuel k hk
    omega
  | succ fuel ih =>
    intro i stop t times hi hs hne hlen hfuel k hk
    unfold seedLoop
    split
    · next hstop =>
      -- one backwards step reaches `stop`: nothing is assigned
      rw [if_neg (by omega)]
    · next hstop =>
      have hi₂ : (47 + i) % 48 < 48 := by omega
      have hne₂ : (47 + i) % 48 ≠ stop := hstop
      have hlen₂ : (times.set ((47 + i) % 48) (t - nominalDurationPerIndex)).length = 48 := by
        simp [hlen]
      have hfuel₂ : ((47 + i) % 48 + 48 - stop) % 48 ≤ fuel := by omega
      have hrec := ih ((47 + i) % 48) stop (t - nominalDurationPerIndex)
        (times.set ((47 + i) % 48) (t - nominalDurationPerIndex))
        hi₂ hs hne₂ hlen₂ hfuel₂ k hk
      rw [hrec]
      have hD₂ : ((47 + i) % 48 + 48 - stop) % 48 = (i + 48 - stop) % 48 - 1 := by omega
      have hD₁ : 1 ≤ (i + 48 - stop) % 48 := by omega
      have hD2' : 2 ≤ (i + 48 - stop) % 48 := by omega
      by_cases h0 : (i + 48 - k) % 48 = 0
      · -- k = i: untouched on this step and on the rest of the loop
        have hk₂ : ((47 + i) % 48 + 48 - k) % 48 = 47 := by omega
        rw [if_neg (by omega), if_neg (by omega)]
        rw [List.getElem?_set_ne (by omega)]
      · by_cases h1 : (i + 48 - k) % 48 = 1
        · -- k is the slot assigned on this step
          have hki : k = (47 + i) % 48 := by omega
          have hk₂ : ((47 + i) % 48 + 48 - k) % 48 = 0 := by omega
          rw [if_neg (by omega), if_pos (by omega)]
          subst hki
          rw [List.getElem?_set_eq (by omega)]
          rw [h1]
          simp [nominalDurationPerIndex]
        · -- at least two steps back
          have hk₂ : ((47 + i) % 48 + 48 - k) % 48 = (i + 48 - k) % 48 - 1 := by omega
          by_cases hin : (i + 48 - k) % 48 < (i + 48 - stop) % 48
          · rw [if_pos (by omega), if_pos (by omega)]
            have hcast : (((((47 + i) % 48 + 48 - k) % 48 : Nat)) : Int) =
                ((((i + 48 - k) % 48 : Nat)) : Int) - 1 := by
              rw [hk₂]
              push_cast [Nat.cast_sub (by omega : 1 ≤ (i + 48 - k) % 48)]
              ring
            rw [hcast]
            congr 1
            simp [nominalDurationPerIndex]
            ring
          · rw [if_neg (by omega), if_neg (by omega)]
            rw [List.getElem?_set_ne (by omega)]


lemma indexAndOffset_lt {sc idx : Nat} {off : Int}
    (h : indexAndOffset sc = some (idx, off)) : idx < 48 := by
  unfold indexAndOffset at h
  cases hsn : slotNumber? sc with
  | none => rw [hsn] at h; exact Option.noConfusion h
  | some n =>
    rw [hsn] at h
    first
    | simp only [Option.map_some] at h
    | simp only [Option.map_some'] at h
    obtain ⟨h₁, -⟩ := Prod.mk.inj (Option.some.inj h)
    unfold slotNumber? at hsn
    split at hsn
    case isFalse => exact Option.noConfusion hsn
    next hle =>
    have hn : n ≤ 0x2edf := Option.some.inj hsn ▸ hle
    have hep : slotEpoch sc ≤ 3 := by
      unfold slotEpoch
      have := Nat.and_le_right (n := sc) (m := 0xc000)
      omega
    omega

/-- **C9.** `SlotClock::set` behaves exactly as claimed: a time regression
rebuilds the whole table as at construction; a changed index assigns
`times[index] = t - offset` and re-seeds exactly the indices strictly between
the last index and the new index (walking backwards modulo 48, at 5 s per
step), leaving the last index's own entry and everything else intact; an
unchanged index reassigns nothing; and the stored `(last_index, last_time)`
always becomes `(index, t)`. -/
theorem c9_slot_clock_set_spec (c : SlotClock) (sc : Nat) (t : Int)
    (idx : Nat) (off : Int)
    (hio : indexAndOffset sc = some (idx, off))
    (hlen : c.times.length = 48) (hlast : c.lastIndex < 48) :
    (c.lastTime > t → SlotClock.set c sc t = SlotClock.new sc t) ∧
    (¬ c.lastTime > t → c.lastIndex = idx →
      SlotClock.set c sc t = some { c with lastIndex := idx, lastTime := t }) ∧
    (¬ c.lastTime > t → c.lastIndex ≠ idx →
      ∃ c', SlotClock.set c sc t = some c' ∧
        c'.lastIndex = idx ∧ c'.lastTime = t ∧ c'.times.length = 48 ∧
        ∀ k, k < 48 →
          c'.times[k]? =
            if (idx + 48 - k) % 48 < (idx + 48 - c.lastIndex) % 48 then
              some (t - off - 5000 * (((idx + 48 - k) % 48 : Nat) : Int))
            else c.times[k]?) := by
  have hidx := indexAndOffset_lt hio
  refine ⟨?_, ?_, ?_⟩
  · intro hgt
    rw [SlotClock.set, hio]
    simp only [if_pos hgt]
  · intro hngt heq
    rw [SlotClock.set, hio]
    simp only [if_neg hngt]
    rw [if_neg (by simpa using heq)]
  · intro hngt hne
    rw [SlotClock.set, hio]
    simp only [if_neg hngt]
    rw [if_pos hne]
    refine ⟨_, rfl, rfl, rfl, ?_, ?_⟩
    · rw [seedLoop_length]
      simp [hlen]
    · intro k hk
      have hset : (c.times.set idx (t - off)).length = 48 := by simp [hlen]
      have hrec := seedLoop_get 48 idx c.lastIndex (t - off) (c.times.set idx (t - off))
        hidx hlast (fun hc => hne hc.symm) hset (by omega) k hk
      rw [hrec]
      by_cases h0 : (idx + 48 - k) % 48 = 0
      · -- `k` is the new index itself
        have hki : k = idx := by omega
        rw [if_neg (by omega), if_pos (by omega)]
        subst hki
        rw [List.getElem?_set_eq (by omega)]
        rw [h0]
        simp
      · have hD₁ : 1 ≤ (idx + 48 - c.lastIndex) % 48 := by omega
        by_cases hin : (idx + 48 - k) % 48 < (idx + 48 - c.lastIndex) % 48
        · rw [if_pos (by omega), if_pos (by omega)]
        · rw [if_neg (by omega), if_neg (by omega)]
          rw [List.getElem?_set_ne (by omega)]

theorem c9_slot_clock_set_spec_witness :
    SlotClock.set ⟨List.replicate 48 0, 0, 10⟩ 0x4000 7 = SlotClock.new 0x4000 7 :=
  (c9_slot_clock_set_spec ⟨List.replicate 48 0, 0, 10⟩ 0x4000 7 12 0 (by decide)
    (by decide) (by decide)).1 (by decide)

/-- C7: while an enumeration is active, handling any callback other than
`enumeration_ended` leaves the persistent gateway identities and versions
untouched; handling `enumeration_ended` replaces both persistent maps
wholesale with the transient maps and clears the enumeration state; and an
identity observed during enumeration under the enumeration gateway id itself
leaves the transient state unchanged (the address is discarded, not
inserted). -/
theorem c7_enumeration_atomicity :
    (∀ (o : Observer) (e : ObserverInput) (es : EnumerationState),
      o.enumerationState = some es →
      (∀ gw, e ≠ .enumerationEnded gw) →
      (o.handle e).1.persistentState.gatewayIdentities = o.persistentState.gatewayIdentities ∧
      (o.handle e).1.persistentState.gatewayVersions = o.persistentState.gatewayVersions) ∧
    (∀ (o : Observer) (gw : Nat) (es : EnumerationState),
      o.enumerationState = some es →
      (o.handle (.enumerationEnded gw)).1.persistentState.gatewayIdentities
          = es.gatewayIdentities ∧
      (o.handle (.enumerationEnded gw)).1.persistentState.gatewayVersions
          = es.gatewayVersions ∧
      (o.handle (.enumerationEnded gw)).1.enumerationState = none) ∧
    (∀ (o : Observer) (gw : Nat) (addr : LongAddress) (es : EnumerationState),
      o.enumerationState = some es → gw = es.enumerationGatewayId →
      (o.handle (.gatewayIdentityObserved gw addr)).1.enumerationState = some es) := by
  refine ⟨?_, ?_, ?_⟩
  · intro o e es hes hne
    cases e with
    | enumerationStarted gw => exact ⟨rfl, rfl⟩
    | gatewayIdentityObserved gw addr =>
      simp only [Observer.handle, hes]
      exact ⟨by trivial, by trivial⟩
    | gatewayVersionObserved gw v =>
      simp only [Observer.handle, hes]
      exact ⟨by trivial, by trivial⟩
    | enumerationEnded gw => exact absurd rfl (hne gw)
    | gatewaySlotCounterCaptured gw now => exact ⟨rfl, rfl⟩
    | gatewaySlotCounterObserved gw sc =>
      simp only [Observer.handle]
      repeat' split
      all_goals exact ⟨by trivial, by trivial⟩
    | packetReceived gw h d => exact ⟨rfl, rfl⟩
    | commandExecuted gw rt rtl st stl => exact ⟨rfl, rfl⟩
    | stringRequest gw n r => exact ⟨rfl, rfl⟩
    | stringResponse gw n r => exact ⟨rfl, rfl⟩
    | nodeTablePage gw start nodes =>
      simp only [Observer.handle]
      repeat' split
      all_goals exact ⟨by trivial, by trivial⟩
    | topologyReport gw n r => exact ⟨rfl, rfl⟩
    | powerReport gw n r =>
      simp only [Observer.handle]
      repeat' split
      all_goals exact ⟨by trivial, by trivial⟩
  · intro o gw es hes
    simp only [Observer.handle, hes]
    exact ⟨by trivial, by trivial, by trivial⟩
  · intro o gw addr es hes hgw
    simp only [Observer.handle, hes, EnumerationState.gatewayIdentityObserved]
    rw [if_pos hgw]

/-- C10: the `power_report` handler never changes the observer's state — in
particular its persistent gateway identities, versions and node tables — and
emits either no event (missing slot clock, or invalid slot counter) or
exactly one `PowerReport` event. -/
theorem c10_power_report_pure (o : Observer) (gw node : Nat) (report : PowerReport) :
    (o.handle (.powerReport gw node report)).1 = o ∧
    ((o.handle (.powerReport gw node report)).2 = [] ∨
      ∃ ev, (o.handle (.powerReport gw node report)).2 = [ev]) := by
  simp only [Observer.handle]
  repeat' split
  all_goals first
    | exact ⟨by trivial, Or.inl (by trivial)⟩
    | exact ⟨by trivial, Or.inr ⟨_, by trivial⟩⟩


/-- Witness for C7 at a concrete observer mid-enumeration: a version observed
during enumeration leaves the persistent identities untouched, ending the
enumeration installs the transient identities and clears the transient state,
and an identity under the enumeration gateway id 254 is discarded. -/
theorem c7_enumeration_atomicity_witness :
    ((Observer.handle
        ⟨⟨[], [(1, [1, 2, 3, 4, 5, 6, 7, 8])], [(1, "G1")]⟩,
         some ⟨254, [(2, [8, 7, 6, 5, 4, 3, 2, 1])], [(2, "G2")]⟩, [], [], []⟩
        (.gatewayVersionObserved 9 "X")).1.persistentState.gatewayIdentities
      = [(1, [1, 2, 3, 4, 5, 6, 7, 8])]) ∧
    ((Observer.handle
        ⟨⟨[], [(1, [1, 2, 3, 4, 5, 6, 7, 8])], [(1, "G1")]⟩,
         some ⟨254, [(2, [8, 7, 6, 5, 4, 3, 2, 1])], [(2, "G2")]⟩, [], [], []⟩
        (.enumerationEnded 0)).1.persistentState.gatewayIdentities
      = [(2, [8, 7, 6, 5, 4, 3, 2, 1])]) ∧
    ((Observer.handle
        ⟨⟨[], [(1, [1, 2, 3, 4, 5, 6, 7, 8])], [(1, "G1")]⟩,
         some ⟨254, [(2, [8, 7, 6, 5, 4, 3, 2, 1])], [(2, "G2")]⟩, [], [], []⟩
        (.enumerationEnded 0)).1.enumerationState = none) ∧
    ((Observer.handle
        ⟨⟨[], [(1, [1, 2, 3, 4, 5, 6, 7, 8])], [(1, "G1")]⟩,
         some ⟨254, [(2, [8, 7, 6, 5, 4, 3, 2, 1])], [(2, "G2")]⟩, [], [], []⟩
        (.gatewayIdentityObserved 254 [9, 9, 9, 9, 9, 9, 9, 9])).1.enumerationState
      = some ⟨254, [(2, [8, 7, 6, 5, 4, 3, 2, 1])], [(2, "G2")]⟩) :=
  ⟨(c7_enumeration_atomicity.1 _ _ _ rfl
      (fun _ h => ObserverInput.noConfusion h)).1,
   (c7_enumeration_atomicity.2.1 _ 0 _ rfl).1,
   (c7_enumeration_atomicity.2.1 _ 0 _ rfl).2.2,
   c7_enumeration_atomicity.2.2 _ 254 [9, 9, 9, 9, 9, 9, 9, 9] _ rfl rfl⟩

end Taptap
